import Mathlib

/-!
The entity pool and the class factory of dynamic-graph.

A shallow embedding of `src/dgraph/pool.cpp` and `src/dgraph/factory.cpp`.

* `std::map<std::string, V>` is the list of its entries in iteration order,
  strictly ascending in the key (`Ascending`, kept by every operation); an
  iterator obtained from `find` is the entry it designates.
* A C++ `char` is a Lean `Char`, a `std::string` a Lean `String`; lengths
  count characters.
* A member function that may throw returns the thrown exception or the
  returned value together with the state of the object after the call, so
  that the state after a failed call is explicit.
* Debug traces (`dgDEBUG`, `dgDEBUGIN`, `dgDEBUGOUT`, `dgERRORF`) write to the
  debug flow only and are left out; `DG_THROW` is `throw`.
-/

namespace DynamicGraph

/-! ## `std::map<std::string, V>` -/

/-- The key comparison of the maps, `std::less<std::string>`: the
lexicographic comparison of the characters. -/
def keyLess (a b : String) : Prop := a.toList < b.toList

instance keyLessDecidable : DecidableRel keyLess :=
  fun a b => inferInstanceAs (Decidable (a.toList < b.toList))

/-- The binding of key `k` among the entries: what `find(k)` designates. -/
def lookup {V : Type} (k : String) : List (String × V) → Option V
  | [] => none
  | (k', v) :: t => if k' = k then some v else lookup k t

/-- The entries without the (first) entry of key `k`: `erase` at the
position `find(k)` returned. -/
def remove {V : Type} (k : String) : List (String × V) → List (String × V)
  | [] => []
  | (k', v) :: t => if k' = k then t else (k', v) :: remove k t

/-- The entries after `m[k] = v`: the entry of key `k` is created at its place
in the order when there is none, and its value is set to `v`. -/
def put {V : Type} (k : String) (v : V) : List (String × V) → List (String × V)
  | [] => [(k, v)]
  | (k', v') :: t =>
    if keyLess k k' then (k, v) :: (k', v') :: t
    else if k' = k then (k, v) :: t
    else (k', v') :: put k v t

/-- The entries of a `std::map` are strictly ascending in the key. -/
def Ascending {V : Type} (l : List (String × V)) : Prop :=
  l.Pairwise (fun a b => keyLess a.1 b.1)

instance ascendingDecidable {V : Type} (l : List (String × V)) : Decidable (Ascending l) :=
  List.instDecidablePairwise l

/-- A `std::map<std::string, V>`: its entries in iteration order. The class
invariant of the container is `Ascending`; every operation below keeps it. -/
abbrev StdMap (V : Type) := List (String × V)

/-! ## Exceptions -/

/-- The error codes of `ExceptionFactory::ErrorCodeEnum` that the pool and the
factory raise. -/
inductive ErrorCodeEnum
  | UNREFERED_OBJECT
  | UNREFERED_SIGNAL
  | OBJECT_CONFLICT
  deriving DecidableEq, Repr

/-- An `ExceptionFactory`: its code, its message, and the formatted detail
(the format string with the arguments in place of `%s`; empty when the
exception is built without one). -/
structure ExceptionFactory where
  code : ErrorCodeEnum
  msg : String
  detail : String
  deriving DecidableEq, Repr

/-- The outcome of a call: the exception thrown, or the value returned. -/
inductive Outcome (α : Type)
  | threw (e : ExceptionFactory)
  | returned (a : α)
  deriving DecidableEq, Repr

/-! ## Entities -/

/-- An `Entity*`: the address of an entity object. -/
abbrev EntityPtr := Nat

/-- A `SignalBase<int>*`: the address of a signal object. -/
abbrev SignalPtr := Nat

/-- What the pool reads of an entity object through its virtual interface:
`getName ()`, `getClassName ()` and `getSignal (name)`. -/
structure Entity where
  getName : String
  getClassName : String
  getSignal : String → Outcome SignalPtr

/-- The entity objects in memory, by address. -/
abbrev Memory := EntityPtr → Entity

/-! ## `PoolStorage` -/

/-- The pool: `Entities entityMap`, a `std::map<std::string, Entity*>`. -/
structure PoolStorage where
  entityMap : StdMap EntityPtr
  deriving DecidableEq, Repr

/-- `PoolStorage::registerEntity (entname, ent)`. -/
def PoolStorage.registerEntity (p : PoolStorage) (entname : String) (ent : EntityPtr) :
    Outcome Unit × PoolStorage :=
  match lookup entname p.entityMap with
  | some _ =>
    (.threw ⟨.OBJECT_CONFLICT, "Another entity already defined with the same name. ",
      "Entity name is <" ++ entname ++ ">."⟩, p)
  | none => (.returned (), { entityMap := put entname ent p.entityMap })

/-- `PoolStorage::deregisterEntity (const Entities::iterator&)`. The iterator
is the key of the entry it designates. -/
def PoolStorage.deregisterEntityAt (p : PoolStorage) (entity : String) : PoolStorage :=
  { entityMap := remove entity p.entityMap }

/-- `PoolStorage::deregisterEntity (entname)`. -/
def PoolStorage.deregisterEntity (p : PoolStorage) (entname : String) :
    Outcome Unit × PoolStorage :=
  match lookup entname p.entityMap with
  | none =>
    (.threw ⟨.OBJECT_CONFLICT, "Entity not defined yet. ",
      "Entity name is <" ++ entname ++ ">."⟩, p)
  | some _ => (.returned (), p.deregisterEntityAt entname)

/-- `PoolStorage::getEntity (name)`. -/
def PoolStorage.getEntity (p : PoolStorage) (name : String) :
    Outcome EntityPtr × PoolStorage :=
  match lookup name p.entityMap with
  | none =>
    (.threw ⟨.UNREFERED_OBJECT, "Unknown entity.",
      " (while calling <" ++ name ++ ">)"⟩, p)
  | some ent => (.returned ent, p)

/-- `PoolStorage::existEntity (name)`. -/
def PoolStorage.existEntity (p : PoolStorage) (name : String) : Bool :=
  (lookup name p.entityMap).isSome

/-- `PoolStorage::existEntity (name, ptr)`: the answer and the value of `ptr`
after the call. -/
def PoolStorage.existEntityPtr (p : PoolStorage) (name : String) (ptr : EntityPtr) :
    Bool × EntityPtr :=
  match lookup name p.entityMap with
  | none => (false, ptr)
  | some ent => (true, ent)

/-- The pool together with the record of the entity objects `delete` has been
applied to, in order. -/
structure PoolWorld where
  pool : PoolStorage
  deleted : List EntityPtr
  deriving DecidableEq, Repr

/-- Modelled from the spec: the destructor of `Entity` (entity.cpp is not among
the sources), run by `delete ent`. Spec, section 3: "destruction deregisters
from the Pool first, then releases its signals": the entity deregisters the
name `getName ()` from the pool, and an exception of that call leaves the
destructor. -/
def deleteEntity (mem : Memory) (w : PoolWorld) (ent : EntityPtr) :
    Outcome Unit × PoolWorld :=
  let r := w.pool.deregisterEntity (mem ent).getName
  (r.1, { pool := r.2, deleted := w.deleted ++ [ent] })

/-- The second loop of `clearPlugin`: `delete` on each element of `toDelete`;
an exception ends the loop and leaves the function. -/
def deleteAll (mem : Memory) (w : PoolWorld) : List EntityPtr → Outcome Unit × PoolWorld
  | [] => (.returned (), w)
  | ent :: rest =>
    match deleteEntity mem w ent with
    | (.threw e, w') => (.threw e, w')
    | (.returned _, w') => deleteAll mem w' rest

/-- The first loop of `clearPlugin`: the entities of the map, in iteration
order, whose class name is `name`. -/
def collectPlugin (mem : Memory) (name : String) : StdMap EntityPtr → List EntityPtr
  | [] => []
  | (_, ent) :: rest =>
    if (mem ent).getClassName = name then ent :: collectPlugin mem name rest
    else collectPlugin mem name rest

/-- `PoolStorage::clearPlugin (name)`. -/
def PoolStorage.clearPlugin (mem : Memory) (w : PoolWorld) (name : String) :
    Outcome Unit × PoolWorld :=
  deleteAll mem w (collectPlugin mem name w.pool.entityMap)

/-! ## `std::istringstream` -/

/-- An input string stream: the characters not yet extracted and the state
bits (`badbit` is never set on a string stream). -/
structure istringstream where
  buf : List Char
  eofbit : Bool
  failbit : Bool
  deriving DecidableEq, Repr

/-- A stream just built on a text. -/
def istringstream.ofString (text : String) : istringstream :=
  { buf := text.toList, eofbit := false, failbit := false }

/-- `good ()`. -/
def istringstream.good (s : istringstream) : Bool := !s.eofbit && !s.failbit

/-- `std::isspace` in the "C" locale. -/
def isspace (c : Char) : Bool :=
  c = ' ' || c = '\t' || c = '\n' || c = '\x0b' || c = '\x0c' || c = '\r'

/-- `s >> std::ws`: when the sentry fails, `failbit`; otherwise the leading
whitespace is extracted, with `eofbit` when the characters run out. -/
def istringstream.ws (s : istringstream) : istringstream :=
  if s.good then
    let rest := s.buf.dropWhile isspace
    { buf := rest, eofbit := rest.isEmpty, failbit := false }
  else { s with failbit := true }

/-- The state of `getline` when its extraction loop ends. -/
structure GetlineLoop where
  stored : List Char
  count : Nat
  rest : List Char
  eof : Bool
  fail : Bool
  deriving DecidableEq, Repr

/-- The extraction loop of `getline (buffer, n, delim)` with room for `room`
more characters. The three ends are tested in the order of the standard: end
of the input (`eofbit`); the next character is `delim` (extracted, not
stored); `n - 1` characters are stored (`failbit`). -/
def getlineLoop (delim : Char) : Nat → List Char → GetlineLoop
  | _, [] => { stored := [], count := 0, rest := [], eof := true, fail := false }
  | room, c :: cs =>
    if c = delim then { stored := [], count := 1, rest := cs, eof := false, fail := false }
    else match room with
      | 0 => { stored := [], count := 0, rest := c :: cs, eof := false, fail := true }
      | room' + 1 =>
        let r := getlineLoop delim room' cs
        { r with stored := c :: r.stored, count := r.count + 1 }

/-- `s.getline (buffer, n, delim)`: the characters stored in `buffer` before the
terminating null character, and the stream afterwards. A failed sentry, and
an extraction of no character, set `failbit`. -/
def istringstream.getline (s : istringstream) (n : Nat) (delim : Char) :
    List Char × istringstream :=
  if s.good then
    let r := getlineLoop delim (n - 1) s.buf
    (r.stored, { buf := r.rest, eofbit := r.eof, failbit := r.fail || r.count == 0 })
  else ([], { s with failbit := true })

/-- The `std::string` built from a character buffer: the characters before
the first null character. -/
def cstring (buffer : List Char) : String :=
  String.mk (buffer.takeWhile (fun c => c ≠ '\x00'))

/-- `s >> str` on a `std::string`: the value of `str` and the stream
afterwards. The sentry skips the leading whitespace and fails (`failbit`, and
`eofbit` at the end of the input) when the stream is not good or nothing
follows; `str` keeps its value then. Otherwise `str` receives the characters
up to the next whitespace or the end of the input. -/
def istringstream.extract (s : istringstream) (str : String) : String × istringstream :=
  if s.good then
    let afterWs := s.buf.dropWhile isspace
    if afterWs.isEmpty then (str, { buf := [], eofbit := true, failbit := true })
    else
      let word := afterWs.takeWhile (fun c => !isspace c)
      let rest := afterWs.dropWhile (fun c => !isspace c)
      (String.mk word, { buf := rest, eofbit := rest.isEmpty, failbit := word.isEmpty })
  else (str, { s with failbit := true })

/-- What `objectNameParser` leaves: its answer, `objName`, `funName` and the
stream. -/
structure Parsed where
  ok : Bool
  objName : String
  funName : String
  cmdparse : istringstream
  deriving DecidableEq, Repr

/-- The static function `objectNameParser (cmdparse, objName, funName)` of pool.cpp. -/
def objectNameParser (cmdparse : istringstream) (objName funName : String) : Parsed :=
  let s₁ := cmdparse.ws
  let g := s₁.getline 128 '.'
  if !g.2.good then { ok := false, objName := objName, funName := funName, cmdparse := g.2 }
  else
    let w := g.2.extract funName
    { ok := true, objName := cstring g.1, funName := w.1, cmdparse := w.2 }

/-- What `getSignal` leaves: its outcome, the pool, the stream, and the names
`getEntity` was called with, in order. -/
structure SignalLookup where
  outcome : Outcome SignalPtr
  pool : PoolStorage
  sigpath : istringstream
  lookups : List String

/-- `PoolStorage::getSignal (sigpath)`. -/
def PoolStorage.getSignal (mem : Memory) (p : PoolStorage) (sigpath : istringstream) :
    SignalLookup :=
  let r := objectNameParser sigpath "" ""
  if !r.ok then
    { outcome := .threw ⟨.UNREFERED_SIGNAL, "Parse error in signal name", ""⟩,
      pool := p, sigpath := r.cmdparse, lookups := [] }
  else
    match p.getEntity r.objName with
    | (.threw e, p') =>
      { outcome := .threw e, pool := p', sigpath := r.cmdparse, lookups := [r.objName] }
    | (.returned ent, p') =>
      { outcome := (mem ent).getSignal r.funName, pool := p', sigpath := r.cmdparse,
        lookups := [r.objName] }

/-! ## `FactoryStorage` -/

/-- An `EntityConstructor_ptr`, `Entity* (*) (const std::string&)`: the address
of a constructor function. -/
abbrev EntityConstructor_ptr := Nat

/-- The factory: `EntityMap entityMap`, a
`std::map<std::string, EntityConstructor_ptr>`. -/
structure FactoryStorage where
  entityMap : StdMap EntityConstructor_ptr
  deriving DecidableEq, Repr

/-- `FactoryStorage::existEntity (name, entPtr)`: the answer, and the iterator
left in `entPtr` (the entry found, if any). -/
def FactoryStorage.existEntityIter (f : FactoryStorage) (name : String) :
    Bool × Option EntityConstructor_ptr :=
  let entPtr := lookup name f.entityMap
  (entPtr.isSome, entPtr)

/-- `FactoryStorage::existEntity (name)`. -/
def FactoryStorage.existEntity (f : FactoryStorage) (name : String) : Bool :=
  (f.existEntityIter name).1

/-- `FactoryStorage::registerEntity (entname, ent)`. On a name that exists the
`DG_THROW` is commented out in the source: only `dgERRORF` remains, which
writes to the error trace, and the function returns. -/
def FactoryStorage.registerEntity (f : FactoryStorage) (entname : String)
    (ent : EntityConstructor_ptr) : Outcome Unit × FactoryStorage :=
  if f.existEntityIter entname |>.1 then (.returned (), f)
  else (.returned (), { entityMap := put entname ent f.entityMap })

/-- `FactoryStorage::deregisterEntity (entname)`. -/
def FactoryStorage.deregisterEntity (f : FactoryStorage) (entname : String) :
    Outcome Unit × FactoryStorage :=
  if !(f.existEntityIter entname).1 then
    (.threw ⟨.OBJECT_CONFLICT, "Entity class not defined yet. ",
      "(while removing entity class <" ++ entname ++ ">)."⟩, f)
  else (.returned (), { entityMap := remove entname f.entityMap })

/-- What `newEntity` leaves: its outcome, the factory, and the constructor
calls it made (function and argument), in order. -/
structure Construction (R : Type) where
  outcome : Outcome R
  factory : FactoryStorage
  calls : List (EntityConstructor_ptr × String)

/-- `FactoryStorage::newEntity (classname, objname)`. `call fn arg` is what the
call of the constructor function at `fn` on `arg` yields (the entity built,
or whatever else the constructor ends in); `newEntity` ends in that call and
hands its result on as it is. -/
def FactoryStorage.newEntity {R : Type} (call : EntityConstructor_ptr → String → R)
    (f : FactoryStorage) (classname objname : String) : Construction R :=
  match f.existEntityIter classname with
  | (true, some ctor) =>
    { outcome := .returned (call ctor objname), factory := f, calls := [(ctor, objname)] }
  | _ =>
    { outcome := .threw ⟨.UNREFERED_OBJECT, "Unknown entity.",
        " (while calling new_entity <" ++ classname ++ ">)"⟩,
      factory := f, calls := [] }

/-- The lines of the "listEntities" loop, written to `os` in the iteration
order of the map: "  - ", the key, `endl`. -/
def listLines {V : Type} : StdMap V → String → String
  | [], os => os
  | (k, _) :: rest, os => listLines rest (os ++ "  - " ++ k ++ "\n")

/-- `FactoryStorage::commandLine (cmdLine, cmdArgs, os)`: the text of `os`, the
stream `cmdArgs` and the factory afterwards. The branch "list" calls
`commandLine ("listEntities", cmdArgs, os)`, which runs the branch
"listEntities"; the two branches have the same body here. -/
def FactoryStorage.commandLine (f : FactoryStorage) (cmdLine : String)
    (cmdArgs : istringstream) (os : String) : String × istringstream × FactoryStorage :=
  if cmdLine = "help" then
    let os₁ := os ++ "factory "
    let w := cmdArgs.extract ""
    if !w.2.good then
      (os₁ ++ " <arg>\t\t\t\taccess to the factory (help <arg> for more detail)" ++ "\n",
        w.2, f)
    else if w.1 = "list" then (os₁ ++ "list\t\t:List all available entities." ++ "\n", w.2, f)
    else if w.1 = "listEntities" then
      (os₁ ++ "listEntities\t:List available entities." ++ "\n", w.2, f)
    else (os₁, w.2, f)
  else if cmdLine = "list" then
    (listLines f.entityMap (os ++ " List of available entities:" ++ "\n"), cmdArgs, f)
  else if cmdLine = "listEntities" then
    (listLines f.entityMap (os ++ " List of available entities:" ++ "\n"), cmdArgs, f)
  else (os, cmdArgs, f)

/-! ## `EntityRegisterer` -/

/-- An `EntityRegisterer`: its member `entityName`. -/
structure EntityRegisterer where
  entityName : String
  deriving DecidableEq, Repr

/-- The constructor `EntityRegisterer (entityClassName, maker)`: the object
built, unless `registerEntity` throws, and the factory afterwards. -/
def EntityRegisterer.construct (f : FactoryStorage) (entityClassName : String)
    (maker : EntityConstructor_ptr) : Outcome EntityRegisterer × FactoryStorage :=
  match f.registerEntity entityClassName maker with
  | (.threw e, f') => (.threw e, f')
  | (.returned _, f') => (.returned { entityName := entityClassName }, f')

/-- The destructor `~EntityRegisterer ()`. -/
def EntityRegisterer.destruct (r : EntityRegisterer) (f : FactoryStorage) :
    Outcome Unit × FactoryStorage :=
  f.deregisterEntity r.entityName

/-- A scope that holds one `EntityRegisterer`: the object is constructed, and
destroyed at the end of the scope when its construction returned. -/
def scopedRegisterer (f : FactoryStorage) (entityClassName : String)
    (maker : EntityConstructor_ptr) : Outcome Unit × FactoryStorage :=
  match EntityRegisterer.construct f entityClassName maker with
  | (.threw e, f') => (.threw e, f')
  | (.returned r, f') => r.destruct f'

/-! ## `~PoolStorage` -/

/-- What the loop of the destructor of the pool does, in order: the entry of a
key is erased (`deregisterEntity (iter)`), `delete` is applied to an entity. -/
inductive TeardownEvent
  | erased (name : String)
  | deleted (entity : EntityPtr)
  deriving DecidableEq, Repr

/-- What the destructor of the pool leaves: how it ended, the pool, what its
loop did, in order, and the number of iterations that were begun. -/
structure Teardown where
  outcome : Outcome Unit
  pool : PoolStorage
  events : List TeardownEvent
  iterations : Nat
  deriving DecidableEq, Repr

/-- The loop of `PoolStorage::~PoolStorage ()`, with `fuel` bounding the number
of iterations: while the map has a first entry, the entity of that entry is
taken, the entry is erased (`deregisterEntity (iter)`), and `delete` is
applied to the entity. `destructor q ent` is what the destructor of the entity
`ent`, run by `delete` and not among the sources, does to the pool `q`; an
exception of it leaves the loop. -/
def teardownLoop (destructor : PoolStorage → EntityPtr → Outcome Unit × PoolStorage) :
    Nat → PoolStorage → List TeardownEvent → Nat → Option Teardown
  | 0, _, _, _ => none
  | fuel + 1, p, events, n =>
    match p.entityMap with
    | [] => some { outcome := .returned (), pool := p, events := events, iterations := n }
    | (k, entity) :: _ =>
      match destructor (p.deregisterEntityAt k) entity with
      | (.threw e, p') =>
        some { outcome := .threw e, pool := p',
               events := events ++ [.erased k, .deleted entity], iterations := n + 1 }
      | (.returned _, p') =>
        teardownLoop destructor fuel p' (events ++ [.erased k, .deleted entity]) (n + 1)

/-- `PoolStorage::~PoolStorage ()`, with one more iteration of fuel than the map
has entries; `none` when the loop has not ended by then. -/
def PoolStorage.destructor (destructor : PoolStorage → EntityPtr → Outcome Unit × PoolStorage)
    (p : PoolStorage) : Option Teardown :=
  teardownLoop destructor (p.entityMap.length + 1) p [] 0

/-- `std::string::npos`, the largest `size_t` (64 bits). -/
def npos : Nat := 2 ^ 64 - 1

/-- The scan of `rfind`: the position of the last `c` at or after position `i`
of the text, or else `best`. -/
def rfindFrom (c : Char) : List Char → Nat → Nat → Nat
  | [], _, best => best
  | x :: xs, i, best => rfindFrom c xs (i + 1) (if x = c then i else best)

/-- `s.rfind (c)` for a string of the one character `c`: the position of the
last `c` in `s`, or `npos`. -/
def rfind (s : List Char) (c : Char) : Nat := rfindFrom c s 0 npos

/-- `s.substr (pos, n)`: `none` stands for the `std::out_of_range` thrown when
`pos > s.size ()`; otherwise the `min (n, s.size () - pos)` characters from
position `pos`. -/
def substr (s : List Char) (pos n : Nat) : Option (List Char) :=
  if pos > s.length then none
  else some ((s.drop pos).take (min n (s.length - pos)))

/-- The first statements of `PoolStorage::writeGraph (aFileName)`, which
compute `GenericName`; `none` stands for `std::out_of_range`. -/
def writeGraphGenericName (aFileName : String) : Option String :=
  let IdxPointFound := rfind aFileName.toList '.'
  match substr aFileName.toList 0 IdxPointFound with
  | none => none
  | some tmp1 =>
    let IdxSeparatorFound := rfind aFileName.toList '/'
    if IdxSeparatorFound ≠ npos then
      (substr tmp1 IdxSeparatorFound tmp1.length).map String.mk
    else some (String.mk tmp1)

/-- The lines of the "list" loop of `PoolStorage::commandLine`: for each entry,
`getName ()`, " (", `getClassName ()`, ")", `endl`. -/
def poolListLines (mem : Memory) : StdMap EntityPtr → String → String
  | [], os => os
  | (_, ent) :: rest, os =>
    poolListLines mem rest
      (os ++ (mem ent).getName ++ " (" ++ (mem ent).getClassName ++ ")" ++ "\n")

/-- How a call of `PoolStorage::commandLine` ends: it returns; `getEntity`
throws; `writeGraph` throws `std::out_of_range`; or it ends in the call
`ent.commandLine (functionName, cmdArg, os)` on the entity found, whose result
is `r`. -/
inductive CommandEnd (R : Type)
  | returned
  | threw (e : ExceptionFactory)
  | out_of_range
  | forwarded (ent : EntityPtr) (r : R)
  deriving DecidableEq, Repr

/-- What `PoolStorage::commandLine` leaves: how it ended, the text the pool
itself wrote to `os`, the stream `cmdArg` as the pool left it, the pool, and
the name of the graph `writeGraph` was asked to write, if any. -/
structure PoolCommand (R : Type) where
  ending : CommandEnd R
  os : String
  cmdArg : istringstream
  pool : PoolStorage
  graph : Option String

/-- `PoolStorage::commandLine (objectName, functionName, cmdArg, os)`.
`entityCommandLine ent fn arg os` is what the virtual call
`ent.commandLine (fn, arg, os)` yields. Of `writeGraph` the computation of the
graph name is kept; the file it writes is outside the model. -/
def PoolStorage.commandLine {R : Type}
    (entityCommandLine : EntityPtr → String → istringstream → String → R)
    (mem : Memory) (p : PoolStorage) (objectName functionName : String)
    (cmdArg : istringstream) (os : String) : PoolCommand R :=
  if objectName = "pool" then
    if functionName = "help" then
      { ending := .returned,
        os := os ++ "Pool: " ++ "\n" ++ "  - list" ++ "\n" ++ " - writegraph FileName" ++ "\n",
        cmdArg := cmdArg, pool := p, graph := none }
    else if functionName = "list" then
      { ending := .returned, os := poolListLines mem p.entityMap os,
        cmdArg := cmdArg, pool := p, graph := none }
    else if functionName = "writegraph" then
      let w := cmdArg.extract ""
      match writeGraphGenericName w.1 with
      | none => { ending := .out_of_range, os := os, cmdArg := w.2, pool := p, graph := none }
      | some g => { ending := .returned, os := os, cmdArg := w.2, pool := p, graph := some g }
    else { ending := .returned, os := os, cmdArg := cmdArg, pool := p, graph := none }
  else
    match p.getEntity objectName with
    | (.threw e, p') =>
      { ending := .threw e, os := os, cmdArg := cmdArg, pool := p', graph := none }
    | (.returned ent, p') =>
      { ending := .forwarded ent (entityCommandLine ent functionName cmdArg os),
        os := os, cmdArg := cmdArg, pool := p', graph := none }

/-! ## A memory for the examples -/

/-- The signals of the entity `MyEntity` of the tracer test, by their short
names; another name is an unreferenced signal. -/
def myEntitySignals (name : String) : Outcome SignalPtr :=
  if name = "in_double" then .returned 10
  else if name = "out_double" then .returned 11
  else if name = "out2double" then .returned 12
  else .threw ⟨.UNREFERED_SIGNAL, "The requested signal is not registered", name⟩

/-- An entity without signals. -/
def noSignals (name : String) : Outcome SignalPtr :=
  .threw ⟨.UNREFERED_SIGNAL, "The requested signal is not registered", name⟩

/-- A memory with the entity "e1" of class "X" at address 1, "e2" of class
"Y" at address 2, a `MyEntity` named "my-entity" at address 3, and elsewhere
a `MyEntity` whose name has a null character in it. -/
def exampleMemory : Memory := fun a =>
  if a = 1 then { getName := "e1", getClassName := "X", getSignal := noSignals }
  else if a = 2 then { getName := "e2", getClassName := "Y", getSignal := noSignals }
  else if a = 3 then
    { getName := "my-entity", getClassName := "MyEntity", getSignal := myEntitySignals }
  else { getName := "a\x00b", getClassName := "MyEntity", getSignal := myEntitySignals }

/-! ## Properties of the map operations -/

theorem keyLess_iff (a b : String) : keyLess a b ↔ a < b :=
  String.lt_iff_toList_lt.symm

theorem keyLess_irrefl (a : String) : ¬ keyLess a a := by
  rw [keyLess_iff]; exact lt_irrefl a

theorem keyLess_trans {a b c : String} (h₁ : keyLess a b) (h₂ : keyLess b c) :
    keyLess a c := by
  rw [keyLess_iff] at *; exact lt_trans h₁ h₂

theorem keyLess_of_not {a b : String} (h₁ : ¬ keyLess a b) (h₂ : b ≠ a) :
    keyLess b a := by
  rw [keyLess_iff] at *
  rcases lt_trichotomy a b with h | h | h
  · exact absurd h h₁
  · exact absurd h.symm h₂
  · exact h

theorem remove_sublist {V : Type} (k : String) (l : List (String × V)) :
    (remove k l).Sublist l := by
  induction l with
  | nil => exact List.Sublist.slnil
  | cons a t ih =>
    obtain ⟨k', v⟩ := a
    unfold remove
    split
    · exact List.sublist_cons_self _ _
    · exact ih.cons₂ _

theorem remove_ascending {V : Type} (k : String) {l : List (String × V)}
    (h : Ascending l) : Ascending (remove k l) :=
  List.Pairwise.sublist (remove_sublist k l) h

theorem mem_put {V : Type} (k : String) (v : V) (l : List (String × V))
    (x : String × V) (hx : x ∈ put k v l) : x = (k, v) ∨ x ∈ l := by
  induction l with
  | nil => simp [put] at hx; exact Or.inl hx
  | cons a t ih =>
    obtain ⟨k', v'⟩ := a
    unfold put at hx
    split at hx
    · rcases List.mem_cons.1 hx with h | h
      · exact Or.inl h
      · exact Or.inr h
    · split at hx
      · rcases List.mem_cons.1 hx with h | h
        · exact Or.inl h
        · exact Or.inr (List.mem_cons_of_mem _ h)
      · rcases List.mem_cons.1 hx with h | h
        · exact Or.inr (h ▸ List.mem_cons_self _ _)
        · rcases ih h with h' | h'
          · exact Or.inl h'
          · exact Or.inr (List.mem_cons_of_mem _ h')

theorem put_ascending {V : Type} (k : String) (v : V) {l : List (String × V)}
    (h : Ascending l) : Ascending (put k v l) := by
  induction l with
  | nil => simp [put, Ascending]
  | cons a t ih =>
    obtain ⟨k', v'⟩ := a
    have ht : Ascending t := (List.pairwise_cons.1 h).2
    have hhd := (List.pairwise_cons.1 h).1
    unfold put
    split
    · rename_i hlt
      refine List.pairwise_cons.2 ⟨?_, h⟩
      intro x hx
      rcases List.mem_cons.1 hx with rfl | hx'
      · exact hlt
      · exact keyLess_trans hlt (hhd x hx')
    · split
      · rename_i _ heq
        subst heq
        exact List.pairwise_cons.2 ⟨hhd, ht⟩
      · rename_i hnlt hne
        refine List.pairwise_cons.2 ⟨?_, ih ht⟩
        intro x hx
        rcases mem_put k v t x hx with rfl | hx'
        · exact keyLess_of_not hnlt hne
        · exact hhd x hx'

theorem lookup_put_self {V : Type} (k : String) (v : V) (l : List (String × V)) :
    lookup k (put k v l) = some v := by
  induction l with
  | nil => simp [put, lookup]
  | cons a t ih =>
    obtain ⟨k', v'⟩ := a
    unfold put
    split
    · simp [lookup]
    · split
      · simp [lookup]
      · rename_i _ hne
        simp [lookup, hne, ih]

theorem lookup_put_other {V : Type} (k : String) (v : V) {k₂ : String} (hk : k₂ ≠ k)
    (l : List (String × V)) : lookup k₂ (put k v l) = lookup k₂ l := by
  induction l with
  | nil => simp [put, lookup, Ne.symm hk]
  | cons a t ih =>
    obtain ⟨k', v'⟩ := a
    unfold put
    split
    · simp [lookup, Ne.symm hk]
    · split
      · rename_i _ heq
        subst heq
        simp [lookup, Ne.symm hk]
      · simp [lookup, ih]

theorem lookup_remove_other {V : Type} (k : String) {k₂ : String} (hk : k₂ ≠ k)
    (l : List (String × V)) : lookup k₂ (remove k l) = lookup k₂ l := by
  induction l with
  | nil => rfl
  | cons a t ih =>
    obtain ⟨k', v'⟩ := a
    unfold remove
    split
    · rename_i heq
      subst heq
      simp [lookup, Ne.symm hk]
    · simp [lookup, ih]

theorem lookup_none_of_less {V : Type} (k : String) (l : List (String × V))
    (h : ∀ x ∈ l, keyLess k x.1) : lookup k l = none := by
  induction l with
  | nil => rfl
  | cons a t ih =>
    obtain ⟨k', v'⟩ := a
    have hk : k' ≠ k := by
      intro heq
      have := h (k', v') (List.mem_cons_self _ _)
      rw [heq] at this
      exact keyLess_irrefl k this
    simp [lookup, hk]
    exact ih (fun x hx => h x (List.mem_cons_of_mem _ hx))

theorem lookup_remove_self {V : Type} (k : String) {l : List (String × V)}
    (h : Ascending l) : lookup k (remove k l) = none := by
  induction l with
  | nil => rfl
  | cons a t ih =>
    obtain ⟨k', v'⟩ := a
    have ht : Ascending t := (List.pairwise_cons.1 h).2
    have hhd := (List.pairwise_cons.1 h).1
    unfold remove
    split
    · rename_i heq
      subst heq
      exact lookup_none_of_less _ t hhd
    · rename_i hne
      simp [lookup, hne, ih ht]

theorem lookup_mem {V : Type} {k : String} {v : V} {l : List (String × V)}
    (h : lookup k l = some v) : (k, v) ∈ l := by
  induction l with
  | nil => simp [lookup] at h
  | cons a t ih =>
    obtain ⟨k', v'⟩ := a
    unfold lookup at h
    split at h
    · rename_i heq
      cases h
      subst heq
      exact List.mem_cons_self _ _
    · exact List.mem_cons_of_mem _ (ih h)

theorem mem_lookup {V : Type} {k : String} {v : V} {l : List (String × V)}
    (hl : Ascending l) (h : (k, v) ∈ l) : lookup k l = some v := by
  induction l with
  | nil => simp at h
  | cons a t ih =>
    obtain ⟨k', v'⟩ := a
    have ht : Ascending t := (List.pairwise_cons.1 hl).2
    have hhd := (List.pairwise_cons.1 hl).1
    rcases List.mem_cons.1 h with heq | hmem
    · cases heq
      simp [lookup]
    · have hne : k' ≠ k := by
        intro heq
        have := hhd (k, v) hmem
        rw [heq] at this
        exact keyLess_irrefl k this
      simp [lookup, hne, ih ht hmem]

theorem lookup_eq_some_iff {V : Type} {k : String} {v : V} {l : List (String × V)}
    (hl : Ascending l) : lookup k l = some v ↔ (k, v) ∈ l :=
  ⟨lookup_mem, mem_lookup hl⟩

theorem lookup_eq_none_iff {V : Type} {k : String} {l : List (String × V)}
    (hl : Ascending l) : lookup k l = none ↔ ∀ v, (k, v) ∉ l := by
  constructor
  · intro h v hv
    rw [mem_lookup hl hv] at h
    cases h
  · intro h
    cases hlk : lookup k l with
    | none => rfl
    | some v => exact absurd (lookup_mem hlk) (h v)

theorem filter_key_of_less {V : Type} (k : String) (l : List (String × V))
    (h : ∀ x ∈ l, keyLess k x.1) : l.filter (fun x => decide (x.1 = k)) = [] := by
  rw [List.filter_eq_nil_iff]
  intro x hx
  have hlt := h x hx
  simp only [decide_eq_true_eq]
  intro heq
  rw [heq] at hlt
  exact keyLess_irrefl k hlt

theorem filter_key_of_lookup {V : Type} {k : String} {v : V} {l : List (String × V)}
    (hl : Ascending l) (h : lookup k l = some v) :
    l.filter (fun x => decide (x.1 = k)) = [(k, v)] := by
  induction l with
  | nil => simp [lookup] at h
  | cons a t ih =>
    obtain ⟨k', v'⟩ := a
    have ht : Ascending t := (List.pairwise_cons.1 hl).2
    have hhd := (List.pairwise_cons.1 hl).1
    unfold lookup at h
    split at h
    · rename_i heq
      cases h
      subst heq
      simp [List.filter_cons, filter_key_of_less _ t hhd]
    · rename_i hne
      simp [List.filter_cons, hne, ih ht h]

theorem mem_remove_iff {V : Type} (k : String) {l : List (String × V)}
    (hl : Ascending l) (k₂ : String) (v : V) :
    (k₂, v) ∈ remove k l ↔ (k₂, v) ∈ l ∧ k₂ ≠ k := by
  rw [← lookup_eq_some_iff (remove_ascending k hl), ← lookup_eq_some_iff hl]
  by_cases hk : k₂ = k
  · subst hk
    simp [lookup_remove_self _ hl]
  · simp [lookup_remove_other k hk, hk]

theorem mem_put_iff {V : Type} (k : String) (w : V) {l : List (String × V)}
    (hl : Ascending l) (k₂ : String) (v : V) :
    (k₂, v) ∈ put k w l ↔ (k₂ = k ∧ v = w) ∨ ((k₂, v) ∈ l ∧ k₂ ≠ k) := by
  rw [← lookup_eq_some_iff (put_ascending k w hl), ← lookup_eq_some_iff hl]
  by_cases hk : k₂ = k
  · subst hk
    simp [lookup_put_self, eq_comm]
  · simp [lookup_put_other k w hk, hk]

/-! ## The entity pool -/

theorem registerEntity_ascending (p : PoolStorage) (name : String) (e : EntityPtr)
    (hp : Ascending p.entityMap) : Ascending (p.registerEntity name e).2.entityMap := by
  unfold PoolStorage.registerEntity
  split
  · exact hp
  · exact put_ascending name e hp

theorem deregisterEntity_ascending (p : PoolStorage) (name : String)
    (hp : Ascending p.entityMap) : Ascending (p.deregisterEntity name).2.entityMap := by
  unfold PoolStorage.deregisterEntity
  split
  · exact hp
  · exact remove_ascending name hp

/-- C1: on a pool where `name` is registered, to the entity `e1`,
`registerEntity (name, e2)` throws an `ExceptionFactory` of code
`OBJECT_CONFLICT`; the pool afterwards is the pool before (every entry
unchanged), its only entry of key `name` is `(name, e1)`, and `getEntity (name)`
still answers `e1`. -/
theorem pool_registerEntity_conflict (p : PoolStorage) (name : String) (e1 e2 : EntityPtr)
    (hp : Ascending p.entityMap) (h : (name, e1) ∈ p.entityMap) :
    (∃ ex, (p.registerEntity name e2).1 = .threw ex ∧ ex.code = .OBJECT_CONFLICT) ∧
    (p.registerEntity name e2).2 = p ∧
    (p.registerEntity name e2).2.entityMap.filter (fun x => decide (x.1 = name))
      = [(name, e1)] ∧
    ((p.registerEntity name e2).2.getEntity name).1 = .returned e1 := by
  have hl : lookup name p.entityMap = some e1 := mem_lookup hp h
  have hst : (p.registerEntity name e2).2 = p := by
    simp [PoolStorage.registerEntity, hl]
  refine ⟨?_, hst, ?_, ?_⟩
  · simp [PoolStorage.registerEntity, hl]
  · rw [hst]; exact filter_key_of_lookup hp hl
  · rw [hst]; simp [PoolStorage.getEntity, hl]

/-- Registering "bar" twice: the pool built by a first `registerEntity ("bar", 1)`
rejects `registerEntity ("bar", 2)` and keeps the entity 1. -/
theorem pool_registerEntity_conflict_witness :
    (∃ ex, ((PoolStorage.mk [("bar", 1)]).registerEntity "bar" 2).1 = .threw ex ∧
      ex.code = .OBJECT_CONFLICT) ∧
    ((PoolStorage.mk [("bar", 1)]).registerEntity "bar" 2).2 = PoolStorage.mk [("bar", 1)] ∧
    ((PoolStorage.mk [("bar", 1)]).registerEntity "bar" 2).2.entityMap.filter
      (fun x => decide (x.1 = "bar")) = [("bar", 1)] ∧
    (((PoolStorage.mk [("bar", 1)]).registerEntity "bar" 2).2.getEntity "bar").1
      = .returned 1 :=
  pool_registerEntity_conflict (PoolStorage.mk [("bar", 1)]) "bar" 1 2 (by decide) (by decide)

/-- C2: `getEntity (name)` throws an `ExceptionFactory` of code `UNREFERED_OBJECT`
exactly when no entity is registered under `name`, and throws nothing else;
it returns exactly the entity registered under `name`; after a
`registerEntity (name, e)` on an absent name, which succeeds, `getEntity (name)`
returns `e`; and `existEntity (name)` is true exactly when `getEntity (name)`
returns. The pool is not changed by `getEntity`. -/
theorem pool_getEntity_spec (p : PoolStorage) (name : String)
    (hp : Ascending p.entityMap) :
    ((∃ ex, (p.getEntity name).1 = .threw ex) ↔ ∀ e, (name, e) ∉ p.entityMap) ∧
    (∀ ex, (p.getEntity name).1 = .threw ex → ex.code = .UNREFERED_OBJECT) ∧
    (∀ e, (p.getEntity name).1 = .returned e ↔ (name, e) ∈ p.entityMap) ∧
    (∀ e, (∀ e', (name, e') ∉ p.entityMap) →
      (p.registerEntity name e).1 = .returned () ∧
      ((p.registerEntity name e).2.getEntity name).1 = .returned e) ∧
    (p.existEntity name = true ↔ ∃ e, (p.getEntity name).1 = .returned e) ∧
    (p.getEntity name).2 = p := by
  cases hl : lookup name p.entityMap with
  | none =>
    have hno := (lookup_eq_none_iff hp).1 hl
    refine ⟨?_, ?_, ?_, ?_, ?_, ?_⟩
    · simp [PoolStorage.getEntity, hl]; exact hno
    · intro ex hex
      simp [PoolStorage.getEntity, hl] at hex
      rw [← hex]
    · intro e
      simp [PoolStorage.getEntity, hl]; exact hno e
    · intro e _
      simp [PoolStorage.registerEntity, PoolStorage.getEntity, hl, lookup_put_self]
    · simp [PoolStorage.existEntity, PoolStorage.getEntity, hl]
    · simp [PoolStorage.getEntity, hl]
  | some e₀ =>
    have hmem := lookup_mem hl
    refine ⟨?_, ?_, ?_, ?_, ?_, ?_⟩
    · simp [PoolStorage.getEntity, hl]; exact ⟨e₀, hmem⟩
    · intro ex hex
      simp [PoolStorage.getEntity, hl] at hex
    · intro e
      simp only [PoolStorage.getEntity, hl, Outcome.returned.injEq]
      constructor
      · intro h; rw [← h]; exact hmem
      · intro h
        have := mem_lookup hp h
        rw [hl] at this
        exact Option.some.inj this
    · intro e hno
      exact absurd hmem (hno e₀)
    · simp [PoolStorage.existEntity, PoolStorage.getEntity, hl]
    · simp [PoolStorage.getEntity, hl]

/-- On the pool holding "my-entity" at address 3, looking up "my-entity" and a
fresh registration of "bar". -/
theorem pool_getEntity_spec_witness :
    ((∃ ex, ((PoolStorage.mk [("my-entity", 3)]).getEntity "bar").1 = .threw ex) ↔
      ∀ e, ("bar", e) ∉ (PoolStorage.mk [("my-entity", 3)]).entityMap) ∧
    (∀ ex, ((PoolStorage.mk [("my-entity", 3)]).getEntity "bar").1 = .threw ex →
      ex.code = .UNREFERED_OBJECT) ∧
    (∀ e, ((PoolStorage.mk [("my-entity", 3)]).getEntity "bar").1 = .returned e ↔
      ("bar", e) ∈ (PoolStorage.mk [("my-entity", 3)]).entityMap) ∧
    (∀ e, (∀ e', ("bar", e') ∉ (PoolStorage.mk [("my-entity", 3)]).entityMap) →
      ((PoolStorage.mk [("my-entity", 3)]).registerEntity "bar" e).1 = .returned () ∧
      (((PoolStorage.mk [("my-entity", 3)]).registerEntity "bar" e).2.getEntity "bar").1
        = .returned e) ∧
    ((PoolStorage.mk [("my-entity", 3)]).existEntity "bar" = true ↔
      ∃ e, ((PoolStorage.mk [("my-entity", 3)]).getEntity "bar").1 = .returned e) ∧
    ((PoolStorage.mk [("my-entity", 3)]).getEntity "bar").2
      = PoolStorage.mk [("my-entity", 3)] :=
  pool_getEntity_spec (PoolStorage.mk [("my-entity", 3)]) "bar" (by decide)

/-- C3: `deregisterEntity (name)` throws exactly when `name` is not registered;
when it returns, `name` is no longer registered, and every other name is
registered afterwards exactly as before, to the same entity. -/
theorem pool_deregisterEntity_spec (p : PoolStorage) (name : String)
    (hp : Ascending p.entityMap) :
    ((∃ ex, (p.deregisterEntity name).1 = .threw ex) ↔ ∀ e, (name, e) ∉ p.entityMap) ∧
    ((p.deregisterEntity name).1 = .returned () →
      (∀ e, (name, e) ∉ (p.deregisterEntity name).2.entityMap) ∧
      (p.deregisterEntity name).2.existEntity name = false ∧
      ∀ k e, k ≠ name →
        ((k, e) ∈ (p.deregisterEntity name).2.entityMap ↔ (k, e) ∈ p.entityMap)) := by
  cases hl : lookup name p.entityMap with
  | none =>
    have hno := (lookup_eq_none_iff hp).1 hl
    simp [PoolStorage.deregisterEntity, hl]
    exact hno
  | some e₀ =>
    have hmem := lookup_mem hl
    refine ⟨?_, ?_⟩
    · simp [PoolStorage.deregisterEntity, hl]; exact ⟨e₀, hmem⟩
    · intro _
      simp only [PoolStorage.deregisterEntity, hl, PoolStorage.deregisterEntityAt,
        PoolStorage.existEntity]
      refine ⟨?_, ?_, ?_⟩
      · intro e he
        exact ((mem_remove_iff name hp name e).1 he).2 rfl
      · simp [lookup_remove_self name hp]
      · intro k e hk
        rw [mem_remove_iff name hp]
        exact ⟨fun h => h.1, fun h => ⟨h, hk⟩⟩

/-- Deregistering "bar" from the pool holding "bar" and "foo". -/
theorem pool_deregisterEntity_spec_witness :
    ((∃ ex, ((PoolStorage.mk [("bar", 1), ("foo", 2)]).deregisterEntity "bar").1 = .threw ex) ↔
      ∀ e, ("bar", e) ∉ (PoolStorage.mk [("bar", 1), ("foo", 2)]).entityMap) ∧
    (((PoolStorage.mk [("bar", 1), ("foo", 2)]).deregisterEntity "bar").1 = .returned () →
      (∀ e, ("bar", e) ∉
        ((PoolStorage.mk [("bar", 1), ("foo", 2)]).deregisterEntity "bar").2.entityMap) ∧
      ((PoolStorage.mk [("bar", 1), ("foo", 2)]).deregisterEntity "bar").2.existEntity "bar"
        = false ∧
      ∀ k e, k ≠ "bar" →
        ((k, e) ∈ ((PoolStorage.mk [("bar", 1), ("foo", 2)]).deregisterEntity "bar").2.entityMap
          ↔ (k, e) ∈ (PoolStorage.mk [("bar", 1), ("foo", 2)]).entityMap)) :=
  pool_deregisterEntity_spec (PoolStorage.mk [("bar", 1), ("foo", 2)]) "bar" (by decide)

/-! ### `clearPlugin` -/

theorem deleteEntity_registered (mem : Memory) (w : PoolWorld) (ent : EntityPtr)
    (v : EntityPtr) (h : lookup (mem ent).getName w.pool.entityMap = some v) :
    deleteEntity mem w ent =
      (.returned (), { pool := { entityMap := remove (mem ent).getName w.pool.entityMap },
                       deleted := w.deleted ++ [ent] }) := by
  simp [deleteEntity, PoolStorage.deregisterEntity, PoolStorage.deregisterEntityAt, h]

theorem deleteAll_registered (mem : Memory) (ds : List EntityPtr) :
    ∀ w : PoolWorld, Ascending w.pool.entityMap →
      (ds.map (fun d => (mem d).getName)).Nodup →
      (∀ d ∈ ds, ∃ v, lookup (mem d).getName w.pool.entityMap = some v) →
      ∃ m', deleteAll mem w ds
              = (.returned (), { pool := { entityMap := m' }, deleted := w.deleted ++ ds }) ∧
        Ascending m' ∧
        ∀ k, lookup k m' =
          if k ∈ ds.map (fun d => (mem d).getName) then none
          else lookup k w.pool.entityMap := by
  induction ds with
  | nil =>
    intro w hw _ _
    exact ⟨w.pool.entityMap, by simp [deleteAll], hw, by simp⟩
  | cons d rest ih =>
    intro w hw hnd hreg
    obtain ⟨v, hv⟩ := hreg d (List.mem_cons_self _ _)
    have hnd' : (mem d).getName ∉ rest.map (fun d => (mem d).getName) ∧
        (rest.map (fun d => (mem d).getName)).Nodup := by
      rw [List.map_cons] at hnd
      exact List.nodup_cons.1 hnd
    have hstep := deleteEntity_registered mem w d v hv
    have hrest : ∀ d' ∈ rest, ∃ v', lookup (mem d').getName
        (remove (mem d).getName w.pool.entityMap) = some v' := by
      intro d' hd'
      have hne : (mem d').getName ≠ (mem d).getName := by
        intro heq
        apply hnd'.1
        rw [← heq]
        exact List.mem_map.2 ⟨d', hd', rfl⟩
      rw [lookup_remove_other _ hne]
      exact hreg d' (List.mem_cons_of_mem _ hd')
    obtain ⟨m', hrun, hasc, hlk⟩ := ih
      { pool := { entityMap := remove (mem d).getName w.pool.entityMap },
        deleted := w.deleted ++ [d] }
      (remove_ascending _ hw) hnd'.2 hrest
    refine ⟨m', ?_, hasc, ?_⟩
    · simp only [deleteAll, hstep]
      rw [hrun]
      simp
    · intro k
      rw [hlk k]
      by_cases hk : k = (mem d).getName
      · subst hk
        simp [lookup_remove_self _ hw]
      · simp [hk, lookup_remove_other _ hk]

theorem mem_collectPlugin (mem : Memory) (c : String) (m : StdMap EntityPtr)
    (e : EntityPtr) :
    e ∈ collectPlugin mem c m ↔ ∃ k, (k, e) ∈ m ∧ (mem e).getClassName = c := by
  induction m with
  | nil => simp [collectPlugin]
  | cons a t ih =>
    obtain ⟨k', e'⟩ := a
    unfold collectPlugin
    split
    · rename_i hc
      rw [List.mem_cons, ih]
      constructor
      · rintro (rfl | ⟨k, hk, hcl⟩)
        · exact ⟨k', List.mem_cons_self _ _, hc⟩
        · exact ⟨k, List.mem_cons_of_mem _ hk, hcl⟩
      · rintro ⟨k, hk, hcl⟩
        rcases List.mem_cons.1 hk with heq | hk'
        · cases heq; exact Or.inl rfl
        · exact Or.inr ⟨k, hk', hcl⟩
    · rename_i hc
      rw [ih]
      constructor
      · rintro ⟨k, hk, hcl⟩
        exact ⟨k, List.mem_cons_of_mem _ hk, hcl⟩
      · rintro ⟨k, hk, hcl⟩
        rcases List.mem_cons.1 hk with heq | hk'
        · cases heq; exact absurd hcl hc
        · exact ⟨k, hk', hcl⟩

theorem collectPlugin_names_nodup (mem : Memory) (c : String) (m : StdMap EntityPtr)
    (hm : Ascending m) (hown : ∀ k e, (k, e) ∈ m → (mem e).getName = k) :
    ((collectPlugin mem c m).map (fun d => (mem d).getName)).Nodup := by
  induction m with
  | nil => simp [collectPlugin]
  | cons a t ih =>
    obtain ⟨k', e'⟩ := a
    have ht : Ascending t := (List.pairwise_cons.1 hm).2
    have hhd := (List.pairwise_cons.1 hm).1
    have hown' : ∀ k e, (k, e) ∈ t → (mem e).getName = k :=
      fun k e h => hown k e (List.mem_cons_of_mem _ h)
    unfold collectPlugin
    split
    · rw [List.map_cons, List.nodup_cons]
      refine ⟨?_, ih ht hown'⟩
      intro hin
      obtain ⟨d, hd, hname⟩ := List.mem_map.1 hin
      obtain ⟨k, hk, _⟩ := (mem_collectPlugin mem c t d).1 hd
      have h1 : (mem d).getName = k := hown' k d hk
      have h2 : (mem e').getName = k' := hown k' e' (List.mem_cons_self _ _)
      have hlt := hhd (k, d) hk
      simp only at hname hlt
      rw [← h1, hname, h2] at hlt
      exact keyLess_irrefl _ hlt
    · exact ih ht hown'

/-- C4: on a pool where each entity is registered under its own name,
`clearPlugin (c)` returns; afterwards no registered entity has class name
`c`; `delete` has been applied exactly once to each entity that was
registered with class name `c`, and to nothing else; and every entity
registered with another class name is still registered under the same name
and returned by `getEntity`. The statement is over every pool, so over every
order of the entries. -/
theorem pool_clearPlugin_spec (mem : Memory) (w : PoolWorld) (c : String)
    (hp : Ascending w.pool.entityMap)
    (hown : ∀ k e, (k, e) ∈ w.pool.entityMap → (mem e).getName = k) :
    ∃ d, PoolStorage.clearPlugin mem w c =
        (.returned (), { pool := (PoolStorage.clearPlugin mem w c).2.pool,
                         deleted := w.deleted ++ d }) ∧
      (∀ k e, (k, e) ∈ (PoolStorage.clearPlugin mem w c).2.pool.entityMap →
        (mem e).getClassName ≠ c) ∧
      (∀ k e, (k, e) ∈ w.pool.entityMap → (mem e).getClassName = c → d.count e = 1) ∧
      (∀ e ∈ d, ∃ k, (k, e) ∈ w.pool.entityMap ∧ (mem e).getClassName = c) ∧
      (∀ k e, (k, e) ∈ w.pool.entityMap → (mem e).getClassName ≠ c →
        (k, e) ∈ (PoolStorage.clearPlugin mem w c).2.pool.entityMap ∧
        ((PoolStorage.clearPlugin mem w c).2.pool.getEntity k).1 = .returned e) := by
  have hnd := collectPlugin_names_nodup mem c w.pool.entityMap hp hown
  have hreg : ∀ d ∈ collectPlugin mem c w.pool.entityMap,
      ∃ v, lookup (mem d).getName w.pool.entityMap = some v := by
    intro d hd
    obtain ⟨k, hk, _⟩ := (mem_collectPlugin mem c _ d).1 hd
    refine ⟨d, ?_⟩
    rw [hown k d hk]
    exact mem_lookup hp hk
  obtain ⟨m', hrun, hasc, hlk⟩ := deleteAll_registered mem _ w hp hnd hreg
  have hcp : PoolStorage.clearPlugin mem w c =
      (.returned (), { pool := { entityMap := m' },
                       deleted := w.deleted ++ collectPlugin mem c w.pool.entityMap }) := hrun
  refine ⟨collectPlugin mem c w.pool.entityMap, ?_, ?_, ?_, ?_, ?_⟩
  · rw [hcp]
  · intro k e hke hcl
    rw [hcp] at hke
    have h1 := mem_lookup hasc hke
    rw [hlk k] at h1
    split at h1
    · cases h1
    · have hmem := lookup_mem h1
      rename_i hnot
      apply hnot
      refine List.mem_map.2 ⟨e, (mem_collectPlugin mem c _ e).2 ⟨k, hmem, hcl⟩, ?_⟩
      exact hown k e hmem
  · intro k e hke hcl
    have hin : e ∈ collectPlugin mem c w.pool.entityMap :=
      (mem_collectPlugin mem c _ e).2 ⟨k, hke, hcl⟩
    exact List.count_eq_one_of_mem (List.Nodup.of_map _ hnd) hin
  · intro e he
    exact (mem_collectPlugin mem c _ e).1 he
  · intro k e hke hcl
    have hnot : k ∉ (collectPlugin mem c w.pool.entityMap).map (fun d => (mem d).getName) := by
      intro hin
      obtain ⟨d, hd, hname⟩ := List.mem_map.1 hin
      obtain ⟨k₂, hk₂, hcl₂⟩ := (mem_collectPlugin mem c _ d).1 hd
      have h1 : (mem d).getName = k₂ := hown k₂ d hk₂
      rw [h1] at hname
      subst hname
      have h2 := mem_lookup hp hk₂
      rw [mem_lookup hp hke] at h2
      cases h2
      exact hcl hcl₂
    have hl : lookup k m' = some e := by
      rw [hlk k, if_neg hnot]
      exact mem_lookup hp hke
    rw [hcp]
    exact ⟨lookup_mem hl, by simp [PoolStorage.getEntity, hl]⟩

/-- The pool of "e1" (class "X") and "e2" (class "Y"): `clearPlugin ("X")`
destroys "e1" only. -/
theorem pool_clearPlugin_spec_witness :
    ∃ d, PoolStorage.clearPlugin exampleMemory ⟨⟨[("e1", 1), ("e2", 2)]⟩, []⟩ "X" =
        (.returned (),
          { pool := (PoolStorage.clearPlugin exampleMemory
                      ⟨⟨[("e1", 1), ("e2", 2)]⟩, []⟩ "X").2.pool,
            deleted := [] ++ d }) ∧
      (∀ k e, (k, e) ∈ (PoolStorage.clearPlugin exampleMemory
          ⟨⟨[("e1", 1), ("e2", 2)]⟩, []⟩ "X").2.pool.entityMap →
        (exampleMemory e).getClassName ≠ "X") ∧
      (∀ k e, (k, e) ∈ [("e1", 1), ("e2", 2)] → (exampleMemory e).getClassName = "X" →
        d.count e = 1) ∧
      (∀ e ∈ d, ∃ k, (k, e) ∈ [("e1", 1), ("e2", 2)] ∧ (exampleMemory e).getClassName = "X") ∧
      (∀ k e, (k, e) ∈ [("e1", 1), ("e2", 2)] → (exampleMemory e).getClassName ≠ "X" →
        (k, e) ∈ (PoolStorage.clearPlugin exampleMemory
          ⟨⟨[("e1", 1), ("e2", 2)]⟩, []⟩ "X").2.pool.entityMap ∧
        ((PoolStorage.clearPlugin exampleMemory
          ⟨⟨[("e1", 1), ("e2", 2)]⟩, []⟩ "X").2.pool.getEntity k).1 = .returned e) :=
  pool_clearPlugin_spec exampleMemory ⟨⟨[("e1", 1), ("e2", 2)]⟩, []⟩ "X" (by decide)
    (by
      intro k e h
      rcases List.mem_cons.1 h with h | h
      · cases h; rfl
      · rcases List.mem_cons.1 h with h | h
        · cases h; rfl
        · cases h)

/-! ### `objectNameParser` and `getSignal` -/

theorem getlineLoop_no_delim (delim : Char) (l : List Char) (h : delim ∉ l) :
    ∀ room, (getlineLoop delim room l).eof = true ∨ (getlineLoop delim room l).fail = true := by
  induction l with
  | nil => intro room; left; simp [getlineLoop]
  | cons c cs ih =>
    intro room
    have hc : c ≠ delim := fun heq => h (heq ▸ List.mem_cons_self _ _)
    have hcs : delim ∉ cs := fun hin => h (List.mem_cons_of_mem _ hin)
    cases room with
    | zero => right; simp [getlineLoop, hc]
    | succ r =>
      simp only [getlineLoop, hc, if_false]
      exact ih hcs r

theorem getline_no_delim (s : istringstream) (n : Nat) (delim : Char)
    (h : delim ∉ s.buf) : (s.getline n delim).2.good = false := by
  unfold istringstream.getline
  split
  · rcases getlineLoop_no_delim delim s.buf h (n - 1) with he | hf
    · simp [istringstream.good, he]
    · simp [istringstream.good, hf]
  · simp [istringstream.good]

theorem ws_no_delim (s : istringstream) (delim : Char) (h : delim ∉ s.buf) :
    delim ∉ s.ws.buf := by
  unfold istringstream.ws
  split
  · intro hin
    exact h ((List.dropWhile_suffix isspace).subset hin)
  · exact h

theorem objectNameParser_no_separator (s : istringstream) (objName funName : String)
    (h : '.' ∉ s.buf) : (objectNameParser s objName funName).ok = false := by
  have hg := getline_no_delim s.ws 128 '.' (ws_no_delim s '.' h)
  simp [objectNameParser, hg]

/-- C5: on a text without the separator '.' (the empty text, a text of
whitespace only and a text longer than the buffer included), `getSignal`
throws the `ExceptionFactory` of code `UNREFERED_SIGNAL` and message "Parse
error in signal name"; `getEntity` is not called, so the failure is not an
`UNREFERED_OBJECT`; and the pool is as before. -/
theorem getSignal_no_separator (mem : Memory) (p : PoolStorage) (text : String)
    (h : '.' ∉ text.toList) :
    (p.getSignal mem (istringstream.ofString text)).outcome
      = .threw ⟨.UNREFERED_SIGNAL, "Parse error in signal name", ""⟩ ∧
    (p.getSignal mem (istringstream.ofString text)).lookups = [] ∧
    (∀ ex, (p.getSignal mem (istringstream.ofString text)).outcome = .threw ex →
      ex.code ≠ .UNREFERED_OBJECT) ∧
    (p.getSignal mem (istringstream.ofString text)).pool = p := by
  have hok := objectNameParser_no_separator (istringstream.ofString text) "" "" h
  have hout : (p.getSignal mem (istringstream.ofString text)).outcome
      = .threw ⟨.UNREFERED_SIGNAL, "Parse error in signal name", ""⟩ := by
    simp [PoolStorage.getSignal, hok]
  refine ⟨hout, ?_, ?_, ?_⟩
  · simp [PoolStorage.getSignal, hok]
  · intro ex hex
    rw [hout] at hex
    cases hex
    decide
  · simp [PoolStorage.getSignal, hok]

/-- The path "noSeparatorHere" on the pool holding an entity of that very
name: a parse error, no lookup. -/
theorem getSignal_no_separator_witness :
    ((PoolStorage.mk [("noSeparatorHere", 3)]).getSignal exampleMemory
        (istringstream.ofString "noSeparatorHere")).outcome
      = .threw ⟨.UNREFERED_SIGNAL, "Parse error in signal name", ""⟩ ∧
    ((PoolStorage.mk [("noSeparatorHere", 3)]).getSignal exampleMemory
        (istringstream.ofString "noSeparatorHere")).lookups = [] ∧
    (∀ ex, ((PoolStorage.mk [("noSeparatorHere", 3)]).getSignal exampleMemory
        (istringstream.ofString "noSeparatorHere")).outcome = .threw ex →
      ex.code ≠ .UNREFERED_OBJECT) ∧
    ((PoolStorage.mk [("noSeparatorHere", 3)]).getSignal exampleMemory
        (istringstream.ofString "noSeparatorHere")).pool
      = PoolStorage.mk [("noSeparatorHere", 3)] :=
  getSignal_no_separator exampleMemory (PoolStorage.mk [("noSeparatorHere", 3)])
    "noSeparatorHere" (by decide)

theorem dropWhile_prefix (q : Char → Bool) (lead r : List Char)
    (hl : ∀ c ∈ lead, q c = true) (hr : ∀ c, r.head? = some c → q c = false) :
    (lead ++ r).dropWhile q = r := by
  induction lead with
  | nil =>
    cases r with
    | nil => rfl
    | cons c cs => simp [List.dropWhile, hr c rfl]
  | cons c cs ih =>
    have hc := hl c (List.mem_cons_self _ _)
    simp only [List.cons_append, List.dropWhile_cons, hc, if_true]
    exact ih (fun x hx => hl x (List.mem_cons_of_mem _ hx))

theorem takeWhile_prefix (q : Char → Bool) (w r : List Char)
    (hw : ∀ c ∈ w, q c = true) (hr : ∀ c, r.head? = some c → q c = false) :
    (w ++ r).takeWhile q = w := by
  induction w with
  | nil =>
    cases r with
    | nil => rfl
    | cons c cs => simp [List.takeWhile, hr c rfl]
  | cons c cs ih =>
    have hc := hw c (List.mem_cons_self _ _)
    simp only [List.cons_append, List.takeWhile_cons, hc, if_true]
    rw [ih (fun x hx => hw x (List.mem_cons_of_mem _ hx))]

theorem getlineLoop_delim (delim : Char) (obj rest : List Char) (h : delim ∉ obj) :
    ∀ room, obj.length ≤ room →
      getlineLoop delim room (obj ++ delim :: rest) =
        { stored := obj, count := obj.length + 1, rest := rest, eof := false, fail := false } := by
  induction obj with
  | nil => intro room _; cases room <;> simp [getlineLoop]
  | cons c cs ih =>
    intro room hroom
    have hc : c ≠ delim := fun heq => h (heq ▸ List.mem_cons_self _ _)
    have hcs : delim ∉ cs := fun hin => h (List.mem_cons_of_mem _ hin)
    cases room with
    | zero => simp at hroom
    | succ r =>
      have hr : cs.length ≤ r := by simpa using hroom
      have hrec := ih hcs r hr
      simp [getlineLoop, hc, hrec]

theorem cstring_of_no_null (obj : String) (h : '\x00' ∉ obj.toList) :
    cstring obj.toList = obj := by
  unfold cstring
  have : obj.toList.takeWhile (fun c => decide (c ≠ '\x00')) = obj.toList := by
    rw [List.takeWhile_eq_self_iff]
    intro x hx
    simp only [ne_eq, decide_not, Bool.not_eq_true', decide_eq_false_iff_not]
    intro heq
    exact h (heq ▸ hx)
  rw [this]
  cases obj
  rfl

/-- The parse of a well-formed path: after the leading whitespace, the object
name up to the first '.', then the signal name up to the next whitespace. -/
theorem objectNameParser_path (lead obj sig trail : String)
    (hlead : ∀ c ∈ lead.toList, isspace c = true)
    (hobj : ∀ c, obj.toList.head? = some c → isspace c = false)
    (hdot : '.' ∉ obj.toList) (hlen : obj.length ≤ 127)
    (hnul : '\x00' ∉ obj.toList)
    (hsig : sig ≠ "") (hsigws : ∀ c ∈ sig.toList, isspace c = false)
    (htrail : ∀ c, trail.toList.head? = some c → isspace c = true)
    (objName funName : String) :
    (objectNameParser (istringstream.ofString (lead ++ obj ++ "." ++ sig ++ trail))
        objName funName).ok = true ∧
    (objectNameParser (istringstream.ofString (lead ++ obj ++ "." ++ sig ++ trail))
        objName funName).objName = obj ∧
    (objectNameParser (istringstream.ofString (lead ++ obj ++ "." ++ sig ++ trail))
        objName funName).funName = sig := by
  have hbuf : (istringstream.ofString (lead ++ obj ++ "." ++ sig ++ trail)).buf
      = lead.toList ++ (obj.toList ++ '.' :: (sig.toList ++ trail.toList)) := by
    simp [istringstream.ofString, String.toList]
  have hhead : ∀ c, (obj.toList ++ '.' :: (sig.toList ++ trail.toList)).head? = some c →
      isspace c = false := by
    intro c hc
    cases hobjl : obj.toList with
    | nil =>
      rw [hobjl] at hc
      simp at hc
      rw [← hc]; decide
    | cons a t =>
      rw [hobjl] at hc
      simp at hc
      exact hobj c (by rw [hobjl]; simp [hc])
  have hws : (istringstream.ofString (lead ++ obj ++ "." ++ sig ++ trail)).ws
      = { buf := obj.toList ++ '.' :: (sig.toList ++ trail.toList),
          eofbit := false, failbit := false } := by
    unfold istringstream.ws
    rw [hbuf, dropWhile_prefix isspace _ _ hlead hhead]
    simp [istringstream.good, istringstream.ofString]
  have hsigne : sig.toList ≠ [] := by
    intro hnil
    apply hsig
    cases sig
    simp only [String.toList] at hnil
    subst hnil
    rfl
  have hsighead : ∀ c, (sig.toList ++ trail.toList).head? = some c → isspace c = false := by
    intro c hc
    cases hsl : sig.toList with
    | nil => exact absurd hsl hsigne
    | cons a t =>
      rw [hsl] at hc
      simp at hc
      exact hsigws c (by rw [hsl, hc]; exact List.mem_cons_self _ _)
  have hgl : ({ buf := obj.toList ++ '.' :: (sig.toList ++ trail.toList),
                eofbit := false, failbit := false } : istringstream).getline 128 '.'
      = (obj.toList, { buf := sig.toList ++ trail.toList, eofbit := false, failbit := false }) := by
    unfold istringstream.getline
    have hlen' : obj.toList.length ≤ 128 - 1 := by
      cases obj
      exact hlen
    rw [getlineLoop_delim '.' obj.toList _ hdot (128 - 1) hlen']
    simp [istringstream.good]
  have hdw : (sig.toList ++ trail.toList).dropWhile isspace = sig.toList ++ trail.toList :=
    dropWhile_prefix isspace [] _ (by simp) hsighead
  have htw : (sig.toList ++ trail.toList).takeWhile (fun c => !isspace c) = sig.toList :=
    takeWhile_prefix _ _ _ (by intro c hc; simp [hsigws c hc])
      (by intro c hc; simp [htrail c hc])
  have hne : (sig.toList ++ trail.toList).isEmpty = false := by
    cases hsl : sig.toList with
    | nil => exact absurd hsl hsigne
    | cons a t => rfl
  have hex : (({ buf := sig.toList ++ trail.toList, eofbit := false, failbit := false }
      : istringstream).extract funName).1 = sig := by
    unfold istringstream.extract
    simp only [istringstream.good, Bool.not_false, Bool.and_self, if_true, hdw, hne,
      Bool.false_eq_true, if_false, htw]
    cases sig
    rfl
  unfold objectNameParser
  simp only [hws, hgl, istringstream.good, Bool.not_false, Bool.and_self, Bool.not_true,
    Bool.false_eq_true, if_false]
  exact ⟨trivial, cstring_of_no_null obj hnul, hex⟩

/-- C6, as amended: on a text made of leading whitespace, an object name `obj`
(the text up to the first '.': no '.', no null character, no whitespace at
its start, at most 127 characters), the separator, a non-empty signal name
`sig` without whitespace, and then the end of the text or whitespace,
`getSignal` is `getEntity (obj)` followed by `getSignal (sig)` on the entity
found: it looks up `obj` and nothing else, hands on the exception of
`getEntity`, which is `UNREFERED_OBJECT` when `obj` is not registered, and
otherwise answers what the entity answers for `sig`. -/
theorem getSignal_path (mem : Memory) (p : PoolStorage) (lead obj sig trail : String)
    (hlead : ∀ c ∈ lead.toList, isspace c = true)
    (hobj : ∀ c, obj.toList.head? = some c → isspace c = false)
    (hdot : '.' ∉ obj.toList) (hlen : obj.length ≤ 127)
    (hnul : '\x00' ∉ obj.toList)
    (hsig : sig ≠ "") (hsigws : ∀ c ∈ sig.toList, isspace c = false)
    (htrail : ∀ c, trail.toList.head? = some c → isspace c = true) :
    (p.getSignal mem (istringstream.ofString (lead ++ obj ++ "." ++ sig ++ trail))).outcome
      = (match (p.getEntity obj).1 with
         | .threw e => .threw e
         | .returned ent => (mem ent).getSignal sig) ∧
    (p.getSignal mem (istringstream.ofString (lead ++ obj ++ "." ++ sig ++ trail))).lookups
      = [obj] ∧
    (p.existEntity obj = false →
      ∃ ex, (p.getSignal mem
          (istringstream.ofString (lead ++ obj ++ "." ++ sig ++ trail))).outcome = .threw ex ∧
        ex.code = .UNREFERED_OBJECT) := by
  obtain ⟨hok, hon, hfn⟩ :=
    objectNameParser_path lead obj sig trail hlead hobj hdot hlen hnul hsig hsigws htrail "" ""
  cases hl : lookup obj p.entityMap with
  | none =>
    simp [PoolStorage.getSignal, hok, hon, hfn, PoolStorage.getEntity, hl]
  | some ent =>
    simp [PoolStorage.getSignal, hok, hon, hfn, PoolStorage.getEntity, hl,
      PoolStorage.existEntity]

/-- The path of the tracer test, "my-entity.out_double", here after two blanks
and before an argument. -/
theorem getSignal_path_witness :
    ((PoolStorage.mk [("my-entity", 3)]).getSignal exampleMemory
        (istringstream.ofString ("  " ++ "my-entity" ++ "." ++ "out_double" ++ " x"))).outcome
      = (match ((PoolStorage.mk [("my-entity", 3)]).getEntity "my-entity").1 with
         | .threw e => .threw e
         | .returned ent => (exampleMemory ent).getSignal "out_double") ∧
    ((PoolStorage.mk [("my-entity", 3)]).getSignal exampleMemory
        (istringstream.ofString ("  " ++ "my-entity" ++ "." ++ "out_double" ++ " x"))).lookups
      = ["my-entity"] ∧
    ((PoolStorage.mk [("my-entity", 3)]).existEntity "my-entity" = false →
      ∃ ex, ((PoolStorage.mk [("my-entity", 3)]).getSignal exampleMemory
          (istringstream.ofString
            ("  " ++ "my-entity" ++ "." ++ "out_double" ++ " x"))).outcome = .threw ex ∧
        ex.code = .UNREFERED_OBJECT) :=
  getSignal_path exampleMemory (PoolStorage.mk [("my-entity", 3)])
    "  " "my-entity" "out_double" " x"
    (by decide) (by decide) (by decide) (by decide) (by decide) (by decide) (by decide)
    (by decide)

/-- C6 as stated fails on an object name with a null character in it: the
text "a\0b.out_double" has the stated form, with the object name "a\0b" (no
'.', three characters), the entity registered under that name has the signal
"out_double", and yet `getSignal` looks up "a", the buffer read as a C string,
and throws `UNREFERED_OBJECT`. -/
theorem getSignal_path_null_counterexample :
    '.' ∉ "a\x00b".toList ∧ "a\x00b".length ≤ 127 ∧
    (∀ c, "a\x00b".toList.head? = some c → isspace c = false) ∧
    "out_double" ≠ "" ∧ (∀ c ∈ "out_double".toList, isspace c = false) ∧
    (match ((PoolStorage.mk [("a\x00b", 4)]).getEntity "a\x00b").1 with
     | .threw e => Outcome.threw e
     | .returned ent => (exampleMemory ent).getSignal "out_double") = Outcome.returned 11 ∧
    ((PoolStorage.mk [("a\x00b", 4)]).getSignal exampleMemory
        (istringstream.ofString ("" ++ "a\x00b" ++ "." ++ "out_double" ++ ""))).outcome
      = .threw ⟨.UNREFERED_OBJECT, "Unknown entity.", " (while calling <a>)"⟩ ∧
    ((PoolStorage.mk [("a\x00b", 4)]).getSignal exampleMemory
        (istringstream.ofString ("" ++ "a\x00b" ++ "." ++ "out_double" ++ ""))).lookups
      = ["a"] := by
  decide

/-! ## The class factory -/

theorem factory_registerEntity_ascending (f : FactoryStorage) (name : String)
    (ctor : EntityConstructor_ptr) (hf : Ascending f.entityMap) :
    Ascending (f.registerEntity name ctor).2.entityMap := by
  unfold FactoryStorage.registerEntity
  split
  · exact hf
  · exact put_ascending name ctor hf

theorem factory_deregisterEntity_ascending (f : FactoryStorage) (name : String)
    (hf : Ascending f.entityMap) : Ascending (f.deregisterEntity name).2.entityMap := by
  unfold FactoryStorage.deregisterEntity
  split
  · exact hf
  · exact remove_ascending name hf

/-- C7 as stated fails: on the factory where the class "Foo" is registered,
`registerEntity ("Foo", 2)` returns without an exception (and leaves the
factory as it was). -/
theorem factory_registerEntity_conflict_counterexample :
    (FactoryStorage.mk [("Foo", 1)]).existEntity "Foo" = true ∧
    (FactoryStorage.mk [("Foo", 1)]).registerEntity "Foo" 2
      = (.returned (), FactoryStorage.mk [("Foo", 1)]) := by
  decide

/-- C7, as amended: `registerEntity (name, ctor)` throws nothing, whatever the
factory and the name: it returns also when `name` is already registered; and
when `name` is not registered it inserts the entry, so that `name` is
registered afterwards, with `ctor`. -/
theorem factory_registerEntity_returns (f : FactoryStorage) (name : String)
    (ctor : EntityConstructor_ptr) (hf : Ascending f.entityMap) :
    (f.registerEntity name ctor).1 = .returned () ∧
    ((∀ c, (name, c) ∉ f.entityMap) →
      (name, ctor) ∈ (f.registerEntity name ctor).2.entityMap ∧
      (f.registerEntity name ctor).2.existEntity name = true) := by
  constructor
  · unfold FactoryStorage.registerEntity
    split <;> rfl
  · intro hno
    have hl : lookup name f.entityMap = none := (lookup_eq_none_iff hf).2 hno
    simp only [FactoryStorage.registerEntity, FactoryStorage.existEntityIter, hl,
      Option.isSome_none, Bool.false_eq_true, if_false, FactoryStorage.existEntity,
      lookup_put_self, Option.isSome_some, and_true]
    exact lookup_mem (lookup_put_self name ctor f.entityMap)

/-- Registering "Bar" on the factory that has "Foo", and "Foo" once more. -/
theorem factory_registerEntity_returns_witness :
    ((FactoryStorage.mk [("Foo", 1)]).registerEntity "Bar" 2).1 = .returned () ∧
    ((∀ c, ("Bar", c) ∉ (FactoryStorage.mk [("Foo", 1)]).entityMap) →
      ("Bar", 2) ∈ ((FactoryStorage.mk [("Foo", 1)]).registerEntity "Bar" 2).2.entityMap ∧
      ((FactoryStorage.mk [("Foo", 1)]).registerEntity "Bar" 2).2.existEntity "Bar" = true) :=
  factory_registerEntity_returns (FactoryStorage.mk [("Foo", 1)]) "Bar" 2 (by decide)

/-- C8: `registerEntity (name, ctor2)` on a name registered with `ctor1` leaves
the factory exactly as it was: `name` still maps to `ctor1`, and
`newEntity (name, x)` still calls `ctor1`, on `x`. On a name that is not
registered, the entries afterwards are `name -> ctor2` and the entries
before, each as it was. -/
theorem factory_registerEntity_frame {R : Type} (call : EntityConstructor_ptr → String → R)
    (f : FactoryStorage) (name : String) (ctor1 ctor2 : EntityConstructor_ptr)
    (hf : Ascending f.entityMap) :
    ((name, ctor1) ∈ f.entityMap →
      (f.registerEntity name ctor2).2 = f ∧
      (name, ctor1) ∈ (f.registerEntity name ctor2).2.entityMap ∧
      (∀ c, (name, c) ∈ (f.registerEntity name ctor2).2.entityMap → c = ctor1) ∧
      ∀ x, ((f.registerEntity name ctor2).2.newEntity call name x).calls = [(ctor1, x)] ∧
        ((f.registerEntity name ctor2).2.newEntity call name x).outcome
          = .returned (call ctor1 x)) ∧
    ((∀ c, (name, c) ∉ f.entityMap) →
      ∀ k c, (k, c) ∈ (f.registerEntity name ctor2).2.entityMap ↔
        (k = name ∧ c = ctor2) ∨ (k, c) ∈ f.entityMap) := by
  constructor
  · intro hmem
    have hl : lookup name f.entityMap = some ctor1 := mem_lookup hf hmem
    have hst : (f.registerEntity name ctor2).2 = f := by
      simp [FactoryStorage.registerEntity, FactoryStorage.existEntityIter, hl]
    rw [hst]
    refine ⟨rfl, hmem, ?_, ?_⟩
    · intro c hc
      have := mem_lookup hf hc
      rw [hl] at this
      exact (Option.some.inj this).symm
    · intro x
      simp [FactoryStorage.newEntity, FactoryStorage.existEntityIter, hl]
  · intro hno k c
    have hl : lookup name f.entityMap = none := (lookup_eq_none_iff hf).2 hno
    have hst : (f.registerEntity name ctor2).2.entityMap = put name ctor2 f.entityMap := by
      simp [FactoryStorage.registerEntity, FactoryStorage.existEntityIter, hl]
    rw [hst, mem_put_iff name ctor2 hf]
    constructor
    · rintro (h | h)
      · exact Or.inl h
      · exact Or.inr h.1
    · rintro (h | h)
      · exact Or.inl h
      · refine Or.inr ⟨h, ?_⟩
        intro heq
        subst heq
        exact hno c h

/-- Registering "Foo" again, with another constructor, and "Bar" anew, on the
factory that has "Foo". -/
theorem factory_registerEntity_frame_witness :
    (("Foo", 1) ∈ (FactoryStorage.mk [("Foo", 1)]).entityMap →
      ((FactoryStorage.mk [("Foo", 1)]).registerEntity "Foo" 2).2
        = FactoryStorage.mk [("Foo", 1)] ∧
      ("Foo", 1) ∈ ((FactoryStorage.mk [("Foo", 1)]).registerEntity "Foo" 2).2.entityMap ∧
      (∀ c, ("Foo", c) ∈ ((FactoryStorage.mk [("Foo", 1)]).registerEntity "Foo" 2).2.entityMap →
        c = 1) ∧
      ∀ x, (((FactoryStorage.mk [("Foo", 1)]).registerEntity "Foo" 2).2.newEntity
              (fun fn arg => (fn, arg)) "Foo" x).calls = [(1, x)] ∧
        (((FactoryStorage.mk [("Foo", 1)]).registerEntity "Foo" 2).2.newEntity
              (fun fn arg => (fn, arg)) "Foo" x).outcome = .returned (1, x)) ∧
    ((∀ c, ("Foo", c) ∉ (FactoryStorage.mk [("Foo", 1)]).entityMap) →
      ∀ k c, (k, c) ∈ ((FactoryStorage.mk [("Foo", 1)]).registerEntity "Foo" 2).2.entityMap ↔
        (k = "Foo" ∧ c = 2) ∨ (k, c) ∈ (FactoryStorage.mk [("Foo", 1)]).entityMap) :=
  factory_registerEntity_frame (fun fn arg => (fn, arg)) (FactoryStorage.mk [("Foo", 1)])
    "Foo" 1 2 (by decide)

/-- C9: `deregisterEntity (name)` throws exactly when `name` is not registered;
when it returns, `existEntity (name)` is false afterwards and every other
class is registered exactly as before, with the same constructor. -/
theorem factory_deregisterEntity_spec (f : FactoryStorage) (name : String)
    (hf : Ascending f.entityMap) :
    ((∃ ex, (f.deregisterEntity name).1 = .threw ex) ↔ ∀ c, (name, c) ∉ f.entityMap) ∧
    ((f.deregisterEntity name).1 = .returned () →
      (f.deregisterEntity name).2.existEntity name = false ∧
      ∀ k c, k ≠ name →
        ((k, c) ∈ (f.deregisterEntity name).2.entityMap ↔ (k, c) ∈ f.entityMap)) := by
  cases hl : lookup name f.entityMap with
  | none =>
    have hno := (lookup_eq_none_iff hf).1 hl
    simp [FactoryStorage.deregisterEntity, FactoryStorage.existEntityIter, hl]
    exact hno
  | some c₀ =>
    have hmem := lookup_mem hl
    refine ⟨?_, ?_⟩
    · simp [FactoryStorage.deregisterEntity, FactoryStorage.existEntityIter, hl]
      exact ⟨c₀, hmem⟩
    · intro _
      simp only [FactoryStorage.deregisterEntity, FactoryStorage.existEntityIter, hl,
        Option.isSome_some, Bool.not_true, Bool.false_eq_true, if_false,
        FactoryStorage.existEntity]
      refine ⟨?_, ?_⟩
      · simp [lookup_remove_self name hf]
      · intro k c hk
        rw [mem_remove_iff name hf]
        exact ⟨fun h => h.1, fun h => ⟨h, hk⟩⟩

/-- Deregistering "Foo" from the factory of "Foo" and "MyEntity". -/
theorem factory_deregisterEntity_spec_witness :
    ((∃ ex, ((FactoryStorage.mk [("Foo", 1), ("MyEntity", 2)]).deregisterEntity "Foo").1
        = .threw ex) ↔
      ∀ c, ("Foo", c) ∉ (FactoryStorage.mk [("Foo", 1), ("MyEntity", 2)]).entityMap) ∧
    (((FactoryStorage.mk [("Foo", 1), ("MyEntity", 2)]).deregisterEntity "Foo").1
        = .returned () →
      ((FactoryStorage.mk [("Foo", 1), ("MyEntity", 2)]).deregisterEntity "Foo").2.existEntity
        "Foo" = false ∧
      ∀ k c, k ≠ "Foo" →
        ((k, c) ∈
            ((FactoryStorage.mk [("Foo", 1), ("MyEntity", 2)]).deregisterEntity "Foo").2.entityMap
          ↔ (k, c) ∈ (FactoryStorage.mk [("Foo", 1), ("MyEntity", 2)]).entityMap)) :=
  factory_deregisterEntity_spec (FactoryStorage.mk [("Foo", 1), ("MyEntity", 2)]) "Foo"
    (by decide)

/-- C10: `newEntity (className, instanceName)` throws exactly when `className` is
not registered, and what it throws is an `ExceptionFactory` of code
`UNREFERED_OBJECT`, thrown before any call; when `className` is registered, with
`ctor`, it makes one call, of `ctor` on `instanceName`, and returns what that
call yields. The factory afterwards is the factory before. -/
theorem factory_newEntity_spec {R : Type} (call : EntityConstructor_ptr → String → R)
    (f : FactoryStorage) (className instanceName : String) (hf : Ascending f.entityMap) :
    ((∃ ex, (f.newEntity call className instanceName).outcome = .threw ex) ↔
      ∀ c, (className, c) ∉ f.entityMap) ∧
    (∀ ex, (f.newEntity call className instanceName).outcome = .threw ex →
      ex.code = .UNREFERED_OBJECT ∧ (f.newEntity call className instanceName).calls = []) ∧
    (∀ ctor, (className, ctor) ∈ f.entityMap →
      (f.newEntity call className instanceName).outcome = .returned (call ctor instanceName) ∧
      (f.newEntity call className instanceName).calls = [(ctor, instanceName)]) ∧
    (f.newEntity call className instanceName).factory = f := by
  cases hl : lookup className f.entityMap with
  | none =>
    have hno := (lookup_eq_none_iff hf).1 hl
    refine ⟨?_, ?_, ?_, ?_⟩
    · simp [FactoryStorage.newEntity, FactoryStorage.existEntityIter, hl]
      exact hno
    · intro ex hex
      simp [FactoryStorage.newEntity, FactoryStorage.existEntityIter, hl] at hex
      simp [FactoryStorage.newEntity, FactoryStorage.existEntityIter, hl, ← hex]
    · intro ctor hc
      exact absurd hc (hno ctor)
    · simp [FactoryStorage.newEntity, FactoryStorage.existEntityIter, hl]
  | some c₀ =>
    have hmem := lookup_mem hl
    refine ⟨?_, ?_, ?_, ?_⟩
    · simp [FactoryStorage.newEntity, FactoryStorage.existEntityIter, hl]
      exact ⟨c₀, hmem⟩
    · intro ex hex
      simp [FactoryStorage.newEntity, FactoryStorage.existEntityIter, hl] at hex
    · intro ctor hc
      have := mem_lookup hf hc
      rw [hl] at this
      cases this
      simp [FactoryStorage.newEntity, FactoryStorage.existEntityIter, hl]
    · simp [FactoryStorage.newEntity, FactoryStorage.existEntityIter, hl]

/-- The two constructions of the tracer test, on the factory of "MyEntity" and
"TracerRealTime": here `newEntity ("MyEntity", "my-entity")`. -/
theorem factory_newEntity_spec_witness :
    ((∃ ex, ((FactoryStorage.mk [("MyEntity", 1), ("TracerRealTime", 2)]).newEntity
        (fun fn arg => (fn, arg)) "MyEntity" "my-entity").outcome = .threw ex) ↔
      ∀ c, ("MyEntity", c) ∉
        (FactoryStorage.mk [("MyEntity", 1), ("TracerRealTime", 2)]).entityMap) ∧
    (∀ ex, ((FactoryStorage.mk [("MyEntity", 1), ("TracerRealTime", 2)]).newEntity
        (fun fn arg => (fn, arg)) "MyEntity" "my-entity").outcome = .threw ex →
      ex.code = .UNREFERED_OBJECT ∧
      ((FactoryStorage.mk [("MyEntity", 1), ("TracerRealTime", 2)]).newEntity
        (fun fn arg => (fn, arg)) "MyEntity" "my-entity").calls = []) ∧
    (∀ ctor, ("MyEntity", ctor) ∈
        (FactoryStorage.mk [("MyEntity", 1), ("TracerRealTime", 2)]).entityMap →
      ((FactoryStorage.mk [("MyEntity", 1), ("TracerRealTime", 2)]).newEntity
        (fun fn arg => (fn, arg)) "MyEntity" "my-entity").outcome
        = .returned (ctor, "my-entity") ∧
      ((FactoryStorage.mk [("MyEntity", 1), ("TracerRealTime", 2)]).newEntity
        (fun fn arg => (fn, arg)) "MyEntity" "my-entity").calls = [(ctor, "my-entity")]) ∧
    ((FactoryStorage.mk [("MyEntity", 1), ("TracerRealTime", 2)]).newEntity
        (fun fn arg => (fn, arg)) "MyEntity" "my-entity").factory
      = FactoryStorage.mk [("MyEntity", 1), ("TracerRealTime", 2)] :=
  factory_newEntity_spec (fun fn arg => (fn, arg))
    (FactoryStorage.mk [("MyEntity", 1), ("TracerRealTime", 2)]) "MyEntity" "my-entity"
    (by decide)

/-! ### Registration followed by deregistration -/

theorem remove_put_absent {V : Type} (k : String) (v : V) (l : List (String × V))
    (h : lookup k l = none) : remove k (put k v l) = l := by
  induction l with
  | nil => simp [put, remove]
  | cons a t ih =>
    obtain ⟨k', v'⟩ := a
    unfold lookup at h
    split at h
    · cases h
    · rename_i hne
      unfold put
      split
      · simp [remove]
      · simp [hne, remove, ih h]

theorem factory_register_deregister (f : FactoryStorage) (name : String)
    (ctor : EntityConstructor_ptr) (h : f.existEntity name = false) :
    (f.registerEntity name ctor).1 = .returned () ∧
    ((f.registerEntity name ctor).2.deregisterEntity name).1 = .returned () ∧
    ((f.registerEntity name ctor).2.deregisterEntity name).2 = f := by
  have hl : lookup name f.entityMap = none := by
    simpa [FactoryStorage.existEntity, FactoryStorage.existEntityIter] using h
  simp [FactoryStorage.registerEntity, FactoryStorage.deregisterEntity,
    FactoryStorage.existEntityIter, hl, lookup_put_self, remove_put_absent]

/-- C11: on a factory where `name` is not registered, `registerEntity (name, ctor)`
and then `deregisterEntity (name)` both return, and the factory afterwards
answers `existEntity` as the factory before did, for every name, and writes
the same text on "listEntities" (and on "list"). -/
theorem factory_register_deregister_roundtrip (f : FactoryStorage) (name : String)
    (ctor : EntityConstructor_ptr) (h : f.existEntity name = false) :
    (f.registerEntity name ctor).1 = .returned () ∧
    ((f.registerEntity name ctor).2.deregisterEntity name).1 = .returned () ∧
    (∀ k, ((f.registerEntity name ctor).2.deregisterEntity name).2.existEntity k
        = f.existEntity k) ∧
    (∀ cmdArgs os,
      (((f.registerEntity name ctor).2.deregisterEntity name).2.commandLine
          "listEntities" cmdArgs os).1 = (f.commandLine "listEntities" cmdArgs os).1) ∧
    (∀ cmdArgs os,
      (((f.registerEntity name ctor).2.deregisterEntity name).2.commandLine
          "list" cmdArgs os).1 = (f.commandLine "list" cmdArgs os).1) := by
  obtain ⟨h₁, h₂, h₃⟩ := factory_register_deregister f name ctor h
  rw [h₃]
  exact ⟨h₁, h₂, fun _ => rfl, fun _ _ => rfl, fun _ _ => rfl⟩

/-- Registering "Foo" and deregistering it, on the factory of "MyEntity" and
"TracerRealTime". -/
theorem factory_register_deregister_roundtrip_witness :
    ((FactoryStorage.mk [("MyEntity", 1), ("TracerRealTime", 2)]).registerEntity "Foo" 3).1
      = .returned () ∧
    (((FactoryStorage.mk [("MyEntity", 1), ("TracerRealTime", 2)]).registerEntity
        "Foo" 3).2.deregisterEntity "Foo").1 = .returned () ∧
    (∀ k, (((FactoryStorage.mk [("MyEntity", 1), ("TracerRealTime", 2)]).registerEntity
        "Foo" 3).2.deregisterEntity "Foo").2.existEntity k
        = (FactoryStorage.mk [("MyEntity", 1), ("TracerRealTime", 2)]).existEntity k) ∧
    (∀ cmdArgs os,
      ((((FactoryStorage.mk [("MyEntity", 1), ("TracerRealTime", 2)]).registerEntity
          "Foo" 3).2.deregisterEntity "Foo").2.commandLine "listEntities" cmdArgs os).1
        = ((FactoryStorage.mk [("MyEntity", 1), ("TracerRealTime", 2)]).commandLine
            "listEntities" cmdArgs os).1) ∧
    (∀ cmdArgs os,
      ((((FactoryStorage.mk [("MyEntity", 1), ("TracerRealTime", 2)]).registerEntity
          "Foo" 3).2.deregisterEntity "Foo").2.commandLine "list" cmdArgs os).1
        = ((FactoryStorage.mk [("MyEntity", 1), ("TracerRealTime", 2)]).commandLine
            "list" cmdArgs os).1) :=
  factory_register_deregister_roundtrip
    (FactoryStorage.mk [("MyEntity", 1), ("TracerRealTime", 2)]) "Foo" 3 (by decide)

/-! ### `EntityRegisterer` -/

/-- A scope with an `EntityRegisterer` for a class that is registered already:
the construction returns, its registration being dropped, and the destruction
erases the entry that was there before. -/
theorem scopedRegisterer_registered (f : FactoryStorage) (name : String)
    (maker : EntityConstructor_ptr) (h : f.existEntity name = true) :
    scopedRegisterer f name maker = (.returned (), { entityMap := remove name f.entityMap }) := by
  have hl : (lookup name f.entityMap).isSome = true := by
    simpa [FactoryStorage.existEntity, FactoryStorage.existEntityIter] using h
  simp [scopedRegisterer, EntityRegisterer.construct, EntityRegisterer.destruct,
    FactoryStorage.registerEntity, FactoryStorage.deregisterEntity,
    FactoryStorage.existEntityIter, hl]

/-- A scope with an `EntityRegisterer` for a class that is not registered
leaves the factory as it was. -/
theorem scopedRegisterer_absent (f : FactoryStorage) (name : String)
    (maker : EntityConstructor_ptr) (h : f.existEntity name = false) :
    scopedRegisterer f name maker = (.returned (), f) := by
  obtain ⟨h₁, h₂, h₃⟩ := factory_register_deregister f name maker h
  have hreg : f.registerEntity name maker = (.returned (), (f.registerEntity name maker).2) :=
    Prod.ext h₁ rfl
  unfold scopedRegisterer EntityRegisterer.construct
  rw [hreg]
  exact Prod.ext h₂ h₃

/-- The classes other than the one of the `EntityRegisterer` are registered
after the scope exactly as before, with the same constructors. -/
theorem scopedRegisterer_others (f : FactoryStorage) (name : String)
    (maker : EntityConstructor_ptr) (hf : Ascending f.entityMap) (k : String)
    (c : EntityConstructor_ptr) (hk : k ≠ name) :
    (k, c) ∈ (scopedRegisterer f name maker).2.entityMap ↔ (k, c) ∈ f.entityMap := by
  cases h : f.existEntity name with
  | false => rw [scopedRegisterer_absent f name maker h]
  | true =>
    rw [scopedRegisterer_registered f name maker h]
    simp only
    rw [mem_remove_iff name hf]
    exact ⟨fun h => h.1, fun h => ⟨h, hk⟩⟩

/-- C12, the code at the failing input: on the factory where "Foo" is
registered with the constructor 1, the construction of an
`EntityRegisterer ("Foo", 2)` returns with the factory unchanged, and the scope
ends with "Foo" deregistered: the class registered before is gone. -/
theorem scopedRegisterer_removes_earlier_class :
    (FactoryStorage.mk [("Foo", 1)]).existEntity "Foo" = true ∧
    EntityRegisterer.construct (FactoryStorage.mk [("Foo", 1)]) "Foo" 2
      = (.returned { entityName := "Foo" }, FactoryStorage.mk [("Foo", 1)]) ∧
    scopedRegisterer (FactoryStorage.mk [("Foo", 1)]) "Foo" 2
      = (.returned (), FactoryStorage.mk []) ∧
    (scopedRegisterer (FactoryStorage.mk [("Foo", 1)]) "Foo" 2).2.existEntity "Foo" = false := by
  decide

/-! ### The error codes of a removal -/

/-- C13 as stated fails: on the empty factory `deregisterEntity ("Foo")` throws
the code `OBJECT_CONFLICT` while `newEntity ("Foo", "x")` throws
`UNREFERED_OBJECT`, and on the empty pool `deregisterEntity ("bar")` throws
`OBJECT_CONFLICT` while `getEntity ("bar")` throws `UNREFERED_OBJECT`. -/
theorem deregisterEntity_code_counterexample :
    ((FactoryStorage.mk []).deregisterEntity "Foo").1
      = .threw ⟨.OBJECT_CONFLICT, "Entity class not defined yet. ",
          "(while removing entity class <Foo>)."⟩ ∧
    ((FactoryStorage.mk []).newEntity (fun fn arg => (fn, arg)) "Foo" "x").outcome
      = .threw ⟨.UNREFERED_OBJECT, "Unknown entity.", " (while calling new_entity <Foo>)"⟩ ∧
    ((PoolStorage.mk []).deregisterEntity "bar").1
      = .threw ⟨.OBJECT_CONFLICT, "Entity not defined yet. ", "Entity name is <bar>."⟩ ∧
    ((PoolStorage.mk []).getEntity "bar").1
      = .threw ⟨.UNREFERED_OBJECT, "Unknown entity.", " (while calling <bar>)"⟩ := by
  decide

/-- C13, as amended: a name that is registered neither in the factory nor in
the pool. `FactoryStorage::deregisterEntity` and `PoolStorage::deregisterEntity`
throw the code `OBJECT_CONFLICT` on it, `newEntity` and `getEntity` throw
`UNREFERED_OBJECT`; and `PoolStorage::registerEntity`, on any name, throws only
`OBJECT_CONFLICT`, and only when that name is registered. -/
theorem deregisterEntity_error_codes {R : Type} (call : EntityConstructor_ptr → String → R)
    (f : FactoryStorage) (p : PoolStorage) (name objname : String)
    (hf : f.existEntity name = false) (hp : p.existEntity name = false) :
    (∃ ex, (f.deregisterEntity name).1 = .threw ex ∧ ex.code = .OBJECT_CONFLICT) ∧
    (∃ ex, (f.newEntity call name objname).outcome = .threw ex ∧
      ex.code = .UNREFERED_OBJECT) ∧
    (∃ ex, (p.deregisterEntity name).1 = .threw ex ∧ ex.code = .OBJECT_CONFLICT) ∧
    (∃ ex, (p.getEntity name).1 = .threw ex ∧ ex.code = .UNREFERED_OBJECT) ∧
    (∀ entname ent ex, (p.registerEntity entname ent).1 = .threw ex →
      ex.code = .OBJECT_CONFLICT ∧ p.existEntity entname = true) := by
  have hlf : lookup name f.entityMap = none := by
    simpa [FactoryStorage.existEntity, FactoryStorage.existEntityIter] using hf
  have hlp : lookup name p.entityMap = none := by
    simpa [PoolStorage.existEntity] using hp
  refine ⟨?_, ?_, ?_, ?_, ?_⟩
  · simp [FactoryStorage.deregisterEntity, FactoryStorage.existEntityIter, hlf]
  · simp [FactoryStorage.newEntity, FactoryStorage.existEntityIter, hlf]
  · simp [PoolStorage.deregisterEntity, hlp]
  · simp [PoolStorage.getEntity, hlp]
  · intro entname ent ex hex
    cases hl : lookup entname p.entityMap with
    | none => simp [PoolStorage.registerEntity, hl] at hex
    | some e₀ =>
      simp [PoolStorage.registerEntity, hl] at hex
      simp [PoolStorage.existEntity, hl, ← hex]

/-- The name "Foo" on the factory of "MyEntity" and the pool of "my-entity". -/
theorem deregisterEntity_error_codes_witness :
    (∃ ex, ((FactoryStorage.mk [("MyEntity", 1)]).deregisterEntity "Foo").1 = .threw ex ∧
      ex.code = .OBJECT_CONFLICT) ∧
    (∃ ex, ((FactoryStorage.mk [("MyEntity", 1)]).newEntity (fun fn arg => (fn, arg))
        "Foo" "x").outcome = .threw ex ∧ ex.code = .UNREFERED_OBJECT) ∧
    (∃ ex, ((PoolStorage.mk [("my-entity", 3)]).deregisterEntity "Foo").1 = .threw ex ∧
      ex.code = .OBJECT_CONFLICT) ∧
    (∃ ex, ((PoolStorage.mk [("my-entity", 3)]).getEntity "Foo").1 = .threw ex ∧
      ex.code = .UNREFERED_OBJECT) ∧
    (∀ entname ent ex,
      ((PoolStorage.mk [("my-entity", 3)]).registerEntity entname ent).1 = .threw ex →
      ex.code = .OBJECT_CONFLICT ∧
      (PoolStorage.mk [("my-entity", 3)]).existEntity entname = true) :=
  deregisterEntity_error_codes (fun fn arg => (fn, arg)) (FactoryStorage.mk [("MyEntity", 1)])
    (PoolStorage.mk [("my-entity", 3)]) "Foo" "x" (by decide) (by decide)

/-! ### `~PoolStorage` -/

/-- C15: a call that throws leaves the registry it works on as it was, whatever
the state and the arguments: `FactoryStorage::deregisterEntity` and `newEntity`
(which then has called no constructor) leave the class map, and
`PoolStorage::deregisterEntity`, `getEntity` and `getSignal` leave the entity
map. A function of the factory has only the class map in reach, a function of
the pool only the entity map, so the other map is as before too. -/
theorem failing_calls_leave_state {R : Type} (call : EntityConstructor_ptr → String → R)
    (mem : Memory) (f : FactoryStorage) (p : PoolStorage) (name objname : String)
    (sigpath : istringstream) :
    ((∃ ex, (f.deregisterEntity name).1 = .threw ex) → (f.deregisterEntity name).2 = f) ∧
    ((∃ ex, (f.newEntity call name objname).outcome = .threw ex) →
      (f.newEntity call name objname).factory = f ∧
      (f.newEntity call name objname).calls = []) ∧
    ((∃ ex, (p.deregisterEntity name).1 = .threw ex) → (p.deregisterEntity name).2 = p) ∧
    ((∃ ex, (p.getEntity name).1 = .threw ex) → (p.getEntity name).2 = p) ∧
    ((∃ ex, (p.getSignal mem sigpath).outcome = .threw ex) →
      (p.getSignal mem sigpath).pool = p) := by
  refine ⟨?_, ?_, ?_, ?_, ?_⟩
  · rintro ⟨ex, hex⟩
    revert hex
    unfold FactoryStorage.deregisterEntity
    split
    · intro _; rfl
    · intro hex; cases hex
  · rintro ⟨ex, hex⟩
    revert hex
    unfold FactoryStorage.newEntity
    split
    · intro hex; cases hex
    · intro _; exact ⟨rfl, rfl⟩
  · rintro ⟨ex, hex⟩
    revert hex
    unfold PoolStorage.deregisterEntity
    split
    · intro _; rfl
    · intro hex; cases hex
  · rintro ⟨ex, hex⟩
    revert hex
    unfold PoolStorage.getEntity
    split
    · intro _; rfl
    · intro hex; cases hex
  · intro _
    cases hok : (objectNameParser sigpath "" "").ok with
    | false => simp [PoolStorage.getSignal, hok]
    | true =>
      cases hl : lookup (objectNameParser sigpath "" "").objName p.entityMap with
      | none => simp [PoolStorage.getSignal, hok, PoolStorage.getEntity, hl]
      | some ent => simp [PoolStorage.getSignal, hok, PoolStorage.getEntity, hl]

/-! ### The commands of the factory -/

theorem join_cons (a : String) (l : List String) :
    String.join (a :: l) = a ++ String.join l := by
  apply String.ext
  simp [String.data_join]

theorem listLines_eq {V : Type} (l : StdMap V) :
    ∀ os, listLines l os
      = os ++ String.join ((l.map Prod.fst).map (fun n => "  - " ++ n ++ "\n")) := by
  induction l with
  | nil =>
    intro os
    simp [listLines, String.join]
  | cons a t ih =>
    intro os
    obtain ⟨k, v⟩ := a
    simp only [listLines, List.map_cons, join_cons]
    rw [ih]
    simp only [String.append_assoc]

theorem keys_pairwise {V : Type} {l : StdMap V} (h : Ascending l) :
    (l.map Prod.fst).Pairwise keyLess :=
  List.pairwise_map.2 h

theorem mem_keys_iff {V : Type} {l : StdMap V} (h : Ascending l) (n : String) :
    n ∈ l.map Prod.fst ↔ (lookup n l).isSome = true := by
  constructor
  · intro hn
    obtain ⟨x, hx, hfst⟩ := List.mem_map.1 hn
    obtain ⟨k, v⟩ := x
    simp only at hfst
    subst hfst
    rw [mem_lookup h hx]
    rfl
  · intro hs
    cases hl : lookup n l with
    | none => rw [hl] at hs; cases hs
    | some v => exact List.mem_map.2 ⟨(n, v), lookup_mem hl, rfl⟩

/-- C17: the command "listEntities" appends to `os` the line
" List of available entities:" and then, for the names of the registered
classes, one line "  - " name each; these names are in ascending
lexicographic order (so each occurs once) and are exactly the names
`existEntity` accepts. The factory is left as it was, and the command "list"
does exactly the same. -/
theorem factory_listEntities_spec (f : FactoryStorage) (cmdArgs : istringstream)
    (os : String) (hf : Ascending f.entityMap) :
    (f.commandLine "listEntities" cmdArgs os).1
      = os ++ " List of available entities:\n" ++
        String.join ((f.entityMap.map Prod.fst).map (fun n => "  - " ++ n ++ "\n")) ∧
    (f.entityMap.map Prod.fst).Pairwise keyLess ∧
    (f.entityMap.map Prod.fst).Pairwise (fun a b => a < b) ∧
    (f.entityMap.map Prod.fst).Nodup ∧
    (∀ n, n ∈ f.entityMap.map Prod.fst ↔ f.existEntity n = true) ∧
    (f.commandLine "listEntities" cmdArgs os).2.2 = f ∧
    f.commandLine "list" cmdArgs os = f.commandLine "listEntities" cmdArgs os := by
  have hk := keys_pairwise hf
  have hlt : (f.entityMap.map Prod.fst).Pairwise (fun a b => a < b) :=
    hk.imp (fun h => (keyLess_iff _ _).1 h)
  refine ⟨?_, hk, hlt, ?_, ?_, ?_, ?_⟩
  · have h1 : ("listEntities" : String) ≠ "help" := by decide
    have h2 : ("listEntities" : String) ≠ "list" := by decide
    have h3 : (" List of available entities:" : String) ++ "\n"
        = " List of available entities:\n" := by decide
    simp only [FactoryStorage.commandLine, h1, h2, if_false, if_true]
    rw [listLines_eq, String.append_assoc os, h3]
  · exact hlt.imp (fun h => ne_of_lt h)
  · intro n
    exact mem_keys_iff hf n
  · have h1 : ("listEntities" : String) ≠ "help" := by decide
    have h2 : ("listEntities" : String) ≠ "list" := by decide
    simp [FactoryStorage.commandLine, h1, h2]
  · have h1 : ("listEntities" : String) ≠ "help" := by decide
    have h2 : ("listEntities" : String) ≠ "list" := by decide
    have h3 : ("list" : String) ≠ "help" := by decide
    simp [FactoryStorage.commandLine, h1, h2, h3]

/-- The list of the factory of "MyEntity" and "TracerRealTime". -/
theorem factory_listEntities_spec_witness :
    ((FactoryStorage.mk [("MyEntity", 1), ("TracerRealTime", 2)]).commandLine
        "listEntities" (istringstream.ofString "") "").1
      = "" ++ " List of available entities:\n" ++
        String.join (((FactoryStorage.mk [("MyEntity", 1), ("TracerRealTime", 2)]).entityMap.map
          Prod.fst).map (fun n => "  - " ++ n ++ "\n")) ∧
    ((FactoryStorage.mk [("MyEntity", 1), ("TracerRealTime", 2)]).entityMap.map
      Prod.fst).Pairwise keyLess ∧
    ((FactoryStorage.mk [("MyEntity", 1), ("TracerRealTime", 2)]).entityMap.map
      Prod.fst).Pairwise (fun a b => a < b) ∧
    ((FactoryStorage.mk [("MyEntity", 1), ("TracerRealTime", 2)]).entityMap.map
      Prod.fst).Nodup ∧
    (∀ n, n ∈ (FactoryStorage.mk [("MyEntity", 1), ("TracerRealTime", 2)]).entityMap.map
        Prod.fst ↔
      (FactoryStorage.mk [("MyEntity", 1), ("TracerRealTime", 2)]).existEntity n = true) ∧
    ((FactoryStorage.mk [("MyEntity", 1), ("TracerRealTime", 2)]).commandLine
        "listEntities" (istringstream.ofString "") "").2.2
      = FactoryStorage.mk [("MyEntity", 1), ("TracerRealTime", 2)] ∧
    (FactoryStorage.mk [("MyEntity", 1), ("TracerRealTime", 2)]).commandLine
        "list" (istringstream.ofString "") ""
      = (FactoryStorage.mk [("MyEntity", 1), ("TracerRealTime", 2)]).commandLine
        "listEntities" (istringstream.ofString "") "" :=
  factory_listEntities_spec (FactoryStorage.mk [("MyEntity", 1), ("TracerRealTime", 2)])
    (istringstream.ofString "") "" (by decide)

/-! ### The commands of the pool -/

/-- C18: `PoolStorage::commandLine` on an object name other than "pool" ends in
the call of `commandLine` on the entity registered under that name, with the
function name, the argument stream and the output stream it received; when
no entity is registered under the name it throws `UNREFERED_OBJECT` and has
written nothing. On the object name "pool" it never ends in a call on an
entity, whatever the pool holds, and a function other than "help", "list"
and "writegraph" returns with nothing written. The pool is left as it was. -/
theorem pool_commandLine_spec {R : Type}
    (entityCommandLine : EntityPtr → String → istringstream → String → R)
    (mem : Memory) (p : PoolStorage) (objectName functionName : String)
    (cmdArg : istringstream) (os : String) (hp : Ascending p.entityMap) :
    (objectName ≠ "pool" →
      (∀ ent, (objectName, ent) ∈ p.entityMap →
        (p.commandLine entityCommandLine mem objectName functionName cmdArg os).ending
          = .forwarded ent (entityCommandLine ent functionName cmdArg os)) ∧
      ((∀ ent, (objectName, ent) ∉ p.entityMap) →
        (∃ ex, (p.commandLine entityCommandLine mem objectName functionName cmdArg os).ending
            = .threw ex ∧ ex.code = .UNREFERED_OBJECT) ∧
        (p.commandLine entityCommandLine mem objectName functionName cmdArg os).os = os)) ∧
    (objectName = "pool" →
      (∀ ent r, (p.commandLine entityCommandLine mem objectName functionName cmdArg os).ending
        ≠ .forwarded ent r) ∧
      (functionName ≠ "help" → functionName ≠ "list" → functionName ≠ "writegraph" →
        (p.commandLine entityCommandLine mem objectName functionName cmdArg os).ending
          = .returned ∧
        (p.commandLine entityCommandLine mem objectName functionName cmdArg os).os = os)) ∧
    (p.commandLine entityCommandLine mem objectName functionName cmdArg os).pool = p := by
  refine ⟨?_, ?_, ?_⟩
  · intro hne
    constructor
    · intro ent hent
      have hl := mem_lookup hp hent
      simp [PoolStorage.commandLine, hne, PoolStorage.getEntity, hl]
    · intro hno
      have hl := (lookup_eq_none_iff hp).2 hno
      simp [PoolStorage.commandLine, hne, PoolStorage.getEntity, hl]
  · intro heq
    subst heq
    constructor
    · intro ent r
      simp only [PoolStorage.commandLine, if_true]
      split
      · simp
      · split
        · simp
        · split
          · split <;> simp
          · simp
    · intro h1 h2 h3
      simp [PoolStorage.commandLine, h1, h2, h3]
  · by_cases hpool : objectName = "pool"
    · subst hpool
      simp only [PoolStorage.commandLine, if_true]
      split
      · rfl
      · split
        · rfl
        · split
          · split <;> rfl
          · rfl
    · cases hl : lookup objectName p.entityMap with
      | none => simp [PoolStorage.commandLine, hpool, PoolStorage.getEntity, hl]
      | some ent => simp [PoolStorage.commandLine, hpool, PoolStorage.getEntity, hl]

/-- The command "help" sent to "my-entity", on the pool that holds "my-entity"
and an entity named "pool". -/
theorem pool_commandLine_spec_witness :
    ("my-entity" ≠ "pool" →
      (∀ ent, ("my-entity", ent) ∈ (PoolStorage.mk [("my-entity", 3), ("pool", 1)]).entityMap →
        ((PoolStorage.mk [("my-entity", 3), ("pool", 1)]).commandLine
            (fun ent fn arg os => (ent, fn, arg, os)) exampleMemory "my-entity" "help"
            (istringstream.ofString "") "").ending
          = .forwarded ent (ent, "help", istringstream.ofString "", "")) ∧
      ((∀ ent, ("my-entity", ent) ∉
          (PoolStorage.mk [("my-entity", 3), ("pool", 1)]).entityMap) →
        (∃ ex, ((PoolStorage.mk [("my-entity", 3), ("pool", 1)]).commandLine
            (fun ent fn arg os => (ent, fn, arg, os)) exampleMemory "my-entity" "help"
            (istringstream.ofString "") "").ending = .threw ex ∧
          ex.code = .UNREFERED_OBJECT) ∧
        ((PoolStorage.mk [("my-entity", 3), ("pool", 1)]).commandLine
            (fun ent fn arg os => (ent, fn, arg, os)) exampleMemory "my-entity" "help"
            (istringstream.ofString "") "").os = "")) ∧
    ("my-entity" = "pool" →
      (∀ ent r, ((PoolStorage.mk [("my-entity", 3), ("pool", 1)]).commandLine
            (fun ent fn arg os => (ent, fn, arg, os)) exampleMemory "my-entity" "help"
            (istringstream.ofString "") "").ending ≠ .forwarded ent r) ∧
      ("help" ≠ "help" → "help" ≠ "list" → "help" ≠ "writegraph" →
        ((PoolStorage.mk [("my-entity", 3), ("pool", 1)]).commandLine
            (fun ent fn arg os => (ent, fn, arg, os)) exampleMemory "my-entity" "help"
            (istringstream.ofString "") "").ending = .returned ∧
        ((PoolStorage.mk [("my-entity", 3), ("pool", 1)]).commandLine
            (fun ent fn arg os => (ent, fn, arg, os)) exampleMemory "my-entity" "help"
            (istringstream.ofString "") "").os = "")) ∧
    ((PoolStorage.mk [("my-entity", 3), ("pool", 1)]).commandLine
        (fun ent fn arg os => (ent, fn, arg, os)) exampleMemory "my-entity" "help"
        (istringstream.ofString "") "").pool
      = PoolStorage.mk [("my-entity", 3), ("pool", 1)] :=
  pool_commandLine_spec (fun ent fn arg os => (ent, fn, arg, os)) exampleMemory
    (PoolStorage.mk [("my-entity", 3), ("pool", 1)]) "my-entity" "help"
    (istringstream.ofString "") "" (by decide)

/-! ### The buffer of `objectNameParser` -/

theorem getlineLoop_overflow (delim : Char) (obj rest : List Char) (h : delim ∉ obj) :
    ∀ room, room < obj.length → (getlineLoop delim room (obj ++ rest)).fail = true := by
  induction obj with
  | nil => intro room hroom; exact absurd hroom (Nat.not_lt_zero _)
  | cons c cs ih =>
    intro room hroom
    have hc : c ≠ delim := fun heq => h (heq ▸ List.mem_cons_self _ _)
    have hcs : delim ∉ cs := fun hin => h (List.mem_cons_of_mem _ hin)
    cases room with
    | zero => simp [getlineLoop, hc]
    | succ r =>
      have hr : r < cs.length := by simpa using hroom
      have hrec := ih hcs r hr
      simp [getlineLoop, hc, hrec]

/-- The stream after the leading whitespace of a path text has been skipped. -/
theorem ws_path (lead body : String)
    (hlead : ∀ c ∈ lead.toList, isspace c = true)
    (hbody : ∀ c, body.toList.head? = some c → isspace c = false)
    (hne : body.toList ≠ []) :
    (istringstream.ofString (lead ++ body)).ws
      = { buf := body.toList, eofbit := false, failbit := false } := by
  have hbuf : (istringstream.ofString (lead ++ body)).buf = lead.toList ++ body.toList := by
    simp [istringstream.ofString, String.toList]
  unfold istringstream.ws
  rw [hbuf, dropWhile_prefix isspace _ _ hlead hbody]
  cases hb : body.toList with
  | nil => exact absurd hb hne
  | cons a t => simp [istringstream.good, istringstream.ofString]

theorem path_head (obj rest : String)
    (hobj : ∀ c, obj.toList.head? = some c → isspace c = false) :
    ∀ c, (obj ++ "." ++ rest).toList.head? = some c → isspace c = false := by
  intro c hc
  have hl : (obj ++ "." ++ rest).toList = obj.toList ++ '.' :: rest.toList := by
    simp [String.toList]
  rw [hl] at hc
  cases hobjl : obj.toList with
  | nil =>
    rw [hobjl] at hc
    simp at hc
    rw [← hc]; decide
  | cons a t =>
    rw [hobjl] at hc
    simp at hc
    exact hobj c (by rw [hobjl]; simp [hc])

/-- C19: a path text made of leading whitespace, a part `obj` without '.' that
does not begin with whitespace, the separator '.', and any rest. When `obj`
has more than 127 characters `getSignal` throws the parse error
`UNREFERED_SIGNAL` and looks nothing up, whatever is registered in the pool;
when `obj` has at most 127 characters the parse succeeds and `getEntity` is
called, once, with the object name read from the buffer. -/
theorem getSignal_object_name_bound (mem : Memory) (p : PoolStorage)
    (lead obj rest : String)
    (hlead : ∀ c ∈ lead.toList, isspace c = true)
    (hobj : ∀ c, obj.toList.head? = some c → isspace c = false)
    (hdot : '.' ∉ obj.toList) :
    (127 < obj.length →
      (p.getSignal mem (istringstream.ofString (lead ++ (obj ++ "." ++ rest)))).outcome
        = .threw ⟨.UNREFERED_SIGNAL, "Parse error in signal name", ""⟩ ∧
      (p.getSignal mem (istringstream.ofString (lead ++ (obj ++ "." ++ rest)))).lookups = []) ∧
    (obj.length ≤ 127 →
      (objectNameParser (istringstream.ofString (lead ++ (obj ++ "." ++ rest))) "" "").ok
        = true ∧
      (p.getSignal mem (istringstream.ofString (lead ++ (obj ++ "." ++ rest)))).lookups
        = [cstring obj.toList]) := by
  have hl : (obj ++ "." ++ rest).toList = obj.toList ++ '.' :: rest.toList := by
    simp [String.toList]
  have hne : (obj ++ "." ++ rest).toList ≠ [] := by
    rw [hl]; simp
  have hws := ws_path lead (obj ++ "." ++ rest) hlead (path_head obj rest hobj) hne
  rw [hl] at hws
  constructor
  · intro hlen
    have hlen' : 128 - 1 < obj.toList.length := by
      cases obj
      exact hlen
    have hfail := getlineLoop_overflow '.' obj.toList ('.' :: rest.toList) hdot (128 - 1) hlen'
    have hok : (objectNameParser (istringstream.ofString (lead ++ (obj ++ "." ++ rest)))
        "" "").ok = false := by
      unfold objectNameParser
      simp only [hws, istringstream.getline, istringstream.good, Bool.not_false,
        Bool.and_self, if_true, hfail, Bool.true_or, Bool.not_true, Bool.and_false]
    simp [PoolStorage.getSignal, hok]
  · intro hlen
    have hlen' : obj.toList.length ≤ 128 - 1 := by
      cases obj
      exact hlen
    have hloop : getlineLoop '.' 127 (obj.data ++ '.' :: rest.data) =
        { stored := obj.data, count := obj.data.length + 1, rest := rest.data,
          eof := false, fail := false } :=
      getlineLoop_delim '.' obj.toList rest.toList hdot (128 - 1) hlen'
    have hparse : (objectNameParser (istringstream.ofString (lead ++ (obj ++ "." ++ rest)))
        "" "").ok = true ∧
        (objectNameParser (istringstream.ofString (lead ++ (obj ++ "." ++ rest)))
        "" "").objName = cstring obj.toList := by
      unfold objectNameParser
      simp [hws, istringstream.getline, istringstream.good, hloop]
    refine ⟨hparse.1, ?_⟩
    cases hlk : lookup (cstring obj.data) p.entityMap with
    | none => simp [PoolStorage.getSignal, hparse.1, hparse.2, PoolStorage.getEntity, hlk]
    | some ent => simp [PoolStorage.getSignal, hparse.1, hparse.2, PoolStorage.getEntity, hlk]

/-- The path "my-entity.out_double" after two blanks. -/
theorem getSignal_object_name_bound_witness :
    (127 < "my-entity".length →
      ((PoolStorage.mk [("my-entity", 3)]).getSignal exampleMemory
          (istringstream.ofString ("  " ++ ("my-entity" ++ "." ++ "out_double")))).outcome
        = .threw ⟨.UNREFERED_SIGNAL, "Parse error in signal name", ""⟩ ∧
      ((PoolStorage.mk [("my-entity", 3)]).getSignal exampleMemory
          (istringstream.ofString ("  " ++ ("my-entity" ++ "." ++ "out_double")))).lookups
        = []) ∧
    ("my-entity".length ≤ 127 →
      (objectNameParser
          (istringstream.ofString ("  " ++ ("my-entity" ++ "." ++ "out_double"))) "" "").ok
        = true ∧
      ((PoolStorage.mk [("my-entity", 3)]).getSignal exampleMemory
          (istringstream.ofString ("  " ++ ("my-entity" ++ "." ++ "out_double")))).lookups
        = [cstring "my-entity".toList]) :=
  getSignal_object_name_bound exampleMemory (PoolStorage.mk [("my-entity", 3)])
    "  " "my-entity" "out_double" (by decide) (by decide) (by decide)

/-! ### The graph name of `writeGraph` -/

/-- C20, the code at the failing input: for the file name "./graph" the last
'.' is at position 0, so the name cut at it is empty, while the last '/' is at
position 1: `substr (1, 0)` on the empty string is out of range, and
`writeGraph`, reached by the command "pool.writegraph ./graph", throws
`std::out_of_range`. -/
theorem writeGraph_name_out_of_range :
    rfind "./graph".toList '.' = 0 ∧
    substr "./graph".toList 0 0 = some [] ∧
    rfind "./graph".toList '/' = 1 ∧
    substr [] 1 0 = none ∧
    writeGraphGenericName "./graph" = none ∧
    ((PoolStorage.mk []).commandLine (fun _ _ _ _ => ()) exampleMemory "pool" "writegraph"
        (istringstream.ofString "./graph") "").ending = .out_of_range := by
  decide

end DynamicGraph
